import Mathlib

/-
Verification of the JNI generator parsing and type-resolution core
(android/jni_generator: type_resolver.py, parse.py, jni_generator.py).

Python strings are embedded as lists of characters (`Str`); every Python
string operation used by the code (substring test, replace, split, join,
suffix test) is defined below with the semantics of the corresponding
Python method.  Fallible Python code (raise SyntaxError / IndexError /
AssertionError / ParseError) is embedded with `Except PyErr`.
-/

abbrev Str := List Char

/-- Python substring containment test at the head position only. -/
def isPre : Str → Str → Bool
  | [], _ => true
  | _ :: _, [] => false
  | a :: xs, b :: ys => a = b && isPre xs ys

/-- Python `sub in s` substring containment test. -/
def pyContains (s sub : Str) : Bool :=
  match s with
  | [] => isPre sub []
  | _ :: rest => isPre sub s || pyContains rest sub

/-- Python `s.endswith(suf)`. -/
def pyEndsWith (s suf : Str) : Bool :=
  isPre suf.reverse s.reverse

/-- Fuel-driven worker for Python `s.replace(old, new)`; the fuel is the
length of the remaining input plus one, and each step consumes at least one
character, so the fuel never runs out when initialised by `pyReplace`. -/
def pyReplaceAux (old new : Str) : Nat → Str → Str
  | 0, s => s
  | _ + 1, [] => []
  | fuel + 1, c :: rest =>
    if old ≠ [] && isPre old (c :: rest) then
      new ++ pyReplaceAux old new fuel ((c :: rest).drop old.length)
    else
      c :: pyReplaceAux old new fuel rest

/-- Python `s.replace(old, new)` (all non-overlapping occurrences, scanned
left to right; with an empty `old` the string is returned unchanged, a case
the code never exercises). -/
def pyReplace (s old new : Str) : Str :=
  pyReplaceAux old new (s.length + 1) s

/-- Python `s.split(sep)` for a one-character separator. -/
def pySplitOn (sep : Char) : Str → List Str
  | [] => [[]]
  | c :: rest =>
    let r := pySplitOn sep rest
    if c = sep then
      [] :: r
    else
      match r with
      | [] => [[c]]
      | g :: gs => (c :: g) :: gs

/-- Python `sep.join(parts)`. -/
def pyJoin (sep : Char) : List Str → Str
  | [] => []
  | [g] => g
  | g :: gs => g ++ sep :: pyJoin sep gs

/-- Errors raised by the embedded Python code, plus one marker
(`fuelExhausted`) that never corresponds to a Python behaviour: it reports
that a fuel-driven model function was run with insufficient fuel. -/
inductive PyErr where
  | syntaxError : Str → PyErr
  | indexError : PyErr
  | parseError : Str → Str → Str → PyErr
  | assertionError : PyErr
  | fuelExhausted : PyErr
deriving DecidableEq

/-- State of `type_resolver.TypeResolver`: the enclosing fully qualified
class, the registered imports and the registered inner classes. -/
structure TypeResolver where
  fully_qualified_class : Str
  imports : List Str
  inner_classes : List Str
deriving DecidableEq

/-- The `_package` field computed by `TypeResolver.__init__`:
`'/'.join(fully_qualified_class.split('/')[:-1])`. -/
def TypeResolver.package (r : TypeResolver) : Str :=
  pyJoin '/' (pySplitOn '/' r.fully_qualified_class).dropLast

/-- The error message raised for a directly imported inner class. -/
def innerClassImportMsg (qualified_name param : Str) : Str :=
  "Inner class (".data ++ qualified_name ++
  ") can not be imported and used by JNI (".data ++ param ++
  "). Please import the outer class and use Outer.Inner instead.".data

/-- Modelled from the spec: the module `java_lang_classes.py` is not part of
the sources; section 4.1 rule 4 describes it as a fixed table of well-known
`java.lang` simple names consulted by the resolver. -/
def javaLangClasses : List Str :=
  ["Boolean".data, "Byte".data, "CharSequence".data, "Character".data,
   "Class".data, "ClassLoader".data, "Double".data, "Enum".data,
   "Error".data, "Exception".data, "Float".data, "Integer".data,
   "Iterable".data, "Long".data, "Math".data, "Number".data, "Object".data,
   "Runnable".data, "Runtime".data, "RuntimeException".data, "Short".data,
   "String".data, "StringBuilder".data, "Thread".data, "Throwable".data,
   "Void".data]

/-- The `java_lang_classes.contains` membership test (modelled from the
spec, see `javaLangClasses`). -/
def javaLangContains (s : Str) : Bool :=
  javaLangClasses.contains s

/-- The inner-class test performed on a matched import inside
`TypeResolver._resolve_helper`: `components = qualified_name.split('/')`,
then `len(components) > 2 and components[-2][0].isupper()`; indexing `[0]`
on an empty segment raises IndexError exactly as in Python. -/
def innerImportTest (qualified_name : Str) : Except PyErr Bool :=
  let components := pySplitOn '/' qualified_name
  if components.length > 2 then
    match (components.getD (components.length - 2) []).head? with
    | none => .error .indexError
    | some c => .ok c.isUpper
  else
    .ok false

/-- Straight translation of `TypeResolver._resolve_helper`. -/
def resolve_helper (r : TypeResolver) (param : Str) : Except PyErr Str :=
  if pyContains param "/".data then
    .ok param
  else
    match (r.fully_qualified_class :: r.inner_classes).find? (fun q =>
        pyEndsWith q ('/' :: param) ||
        pyEndsWith q ('$' :: pyReplace param ".".data "$".data) ||
        q = param) with
    | some q => .ok q
    | none =>
      match r.imports.find? (fun q => pyEndsWith q ('/' :: param)) with
      | some q =>
        match innerImportTest q with
        | .error e => .error e
        | .ok true => .error (.syntaxError (innerClassImportMsg q param))
        | .ok false => .ok q
      | none =>
        let step3 : Except PyErr Str ⊕ Str :=
          if pyContains param ".".data then
            let components := pySplitOn '.' param
            let outer := pyJoin '/' components.dropLast
            let inner := components.getLastD []
            match r.imports.find? (fun q => pyEndsWith q ('/' :: outer)) with
            | some q => .inl (.ok (q ++ '$' :: inner))
            | none => .inr (pyReplace param ".".data "$".data)
          else
            .inr param
        match step3 with
        | .inl res => res
        | .inr param2 =>
          if javaLangContains param2 then
            .ok ("java/lang/".data ++ param2)
          else
            .ok (r.package ++ '/' :: param2)

/-- Rule 1 of the spec resolution precedence: exact match against the
enclosing class or a registered nested class, by simple name, dotted inner
reference, or full equality. -/
def specRuleNested (r : TypeResolver) (param : Str) : Option Str :=
  (r.fully_qualified_class :: r.inner_classes).find? (fun q =>
    pyEndsWith q ('/' :: param) ||
    pyEndsWith q ('$' :: pyReplace param ".".data "$".data) ||
    q = param)

/-- Rule 2 of the spec resolution precedence: exact suffix match against a
registered import. -/
def specRuleImport (r : TypeResolver) (param : Str) : Option Str :=
  r.imports.find? (fun q => pyEndsWith q ('/' :: param))

/-- Rule 3 of the spec resolution precedence: a dotted reference
`Outer.Inner` where only the outer class is imported resolves to the path
of that import with a dollar-separated inner name appended. -/
def specRuleDottedImport (r : TypeResolver) (param : Str) : Option Str :=
  if pyContains param ".".data then
    let components := pySplitOn '.' param
    let outer := pyJoin '/' components.dropLast
    let inner := components.getLastD []
    (r.imports.find? (fun q => pyEndsWith q ('/' :: outer))).map
      (fun q => q ++ '$' :: inner)
  else
    none

/-- The remaining lookup text once rules 1 to 3 fail: a dotted reference is
taken to denote a nested class, so dots become dollars; a dot-free
reference is left unchanged. -/
def specFallbackName (param : Str) : Str :=
  pyReplace param ".".data "$".data

/-- Resolution following the wording of the spec (section 4.1): the five
rules evaluated in order, first match wins, with rule 4 the fixed
`java.lang` table and rule 5 the same-package fallback. -/
def resolveSpec (r : TypeResolver) (param : Str) : Except PyErr Str :=
  match specRuleNested r param with
  | some q => .ok q
  | none =>
    match specRuleImport r param with
    | some q =>
      match innerImportTest q with
      | .error e => .error e
      | .ok true => .error (.syntaxError (innerClassImportMsg q param))
      | .ok false => .ok q
    | none =>
      match specRuleDottedImport r param with
      | some q => .ok q
      | none =>
        let param2 := specFallbackName param
        if javaLangContains param2 then
          .ok ("java/lang/".data ++ param2)
        else
          .ok (r.package ++ '/' :: param2)

/-- All registered imports split into nonempty path segments; every import
produced from a syntactically valid Java import declaration has this
shape. -/
def importsWF (r : TypeResolver) : Bool :=
  r.imports.all (fun q => (pySplitOn '/' q).all (fun seg => !seg.isEmpty))

instance {ε α : Type} [DecidableEq ε] [DecidableEq α] :
    DecidableEq (Except ε α) := fun x y =>
  match x, y with
  | .ok a, .ok b =>
    if h : a = b then .isTrue (by rw [h]) else .isFalse (by simp [h])
  | .error a, .error b =>
    if h : a = b then .isTrue (by rw [h]) else .isFalse (by simp [h])
  | .ok _, .error _ => .isFalse (by simp)
  | .error _, .ok _ => .isFalse (by simp)

/-- The property named by the claim for C6: the import path has an
uppercase-initial segment followed by at least one further segment. -/
def upperSegmentFollowed : List Str → Bool
  | [] => false
  | [_] => false
  | a :: b :: rest =>
    (match a.head? with
     | some c => c.isUpper
     | none => false) || upperSegmentFollowed (b :: rest)

/-- The `_PRIMITIVE_MAP` table of `type_resolver.py`. -/
def primitiveMap (s : Str) : Option Char :=
  if s = "int".data then some 'I'
  else if s = "boolean".data then some 'Z'
  else if s = "char".data then some 'C'
  else if s = "short".data then some 'S'
  else if s = "long".data then some 'J'
  else if s = "double".data then some 'D'
  else if s = "float".data then some 'F'
  else if s = "byte".data then some 'B'
  else if s = "void".data then some 'V'
  else none

/-- Fuel-driven worker for the array-stripping loop of `java_to_jni`
(`while param[-2:] == '[]'`); each iteration removes two characters, so a
fuel equal to the string length never runs out. -/
def stripArraySuffixAux : Nat → Str → Nat × Str
  | 0, s => (0, s)
  | fuel + 1, s =>
    if pyEndsWith s "[]".data then
      let r := stripArraySuffixAux fuel s.dropLast.dropLast
      (r.1 + 1, r.2)
    else
      (0, s)

/-- The array-stripping loop of `java_to_jni`: the number of trailing `[]`
pairs removed and the remaining text. -/
def stripArraySuffix (s : Str) : Nat × Str :=
  stripArraySuffixAux s.length s

/-- The generics step of `java_to_jni`: when the text contains an opening
angle bracket, keep only the part before the first one
(`param[:param.index('<')]`). -/
def cutGenerics (s : Str) : Str :=
  if pyContains s "<".data then
    s.takeWhile (fun c => c ≠ '<')
  else
    s

/-- Straight translation of `TypeResolver.java_to_jni`: strip trailing
array marker pairs building one leading `[` each, cut a generic suffix,
then map primitives directly or resolve and wrap in `L...;`. -/
def java_to_jni (r : TypeResolver) (param : Str) : Except PyErr Str :=
  match primitiveMap (cutGenerics (stripArraySuffix param).2) with
  | some letter =>
    .ok (List.replicate (stripArraySuffix param).1 '[' ++ [letter])
  | none =>
    match resolve_helper r (cutGenerics (stripArraySuffix param).2) with
    | .error e => .error e
    | .ok type_name =>
      .ok (List.replicate (stripArraySuffix param).1 '[' ++
        'L' :: (type_name ++ [';']))

/-- One formal parameter as consumed by `create_signature` (only the
`datatype` attribute is read there). -/
structure SigParam where
  datatype : Str
deriving DecidableEq

/-- Straight translation of `TypeResolver.create_signature`; note the
literal double-quote characters placed around the descriptor. -/
def create_signature (r : TypeResolver) (params : List SigParam)
    (returns : Str) : Except PyErr Str := do
  let ps ← params.mapM (fun p => java_to_jni r p.datatype)
  let ret ← java_to_jni r returns
  .ok ('"' :: '(' :: (ps.flatten ++ ')' :: (ret ++ ['"'])))

/-- Continuation of a `_GENERICS_REGEX` match after the opening angle
bracket: a run of characters other than angle brackets and newline must end
at a closing angle bracket; returns the text after the match. -/
def genericsGroupEnd : Str → Option Str
  | [] => none
  | c :: rest =>
    if c = '>' then some rest
    else if c = '<' then none
    else if c = '\n' then none
    else genericsGroupEnd rest

/-- Fuel-driven worker for one `_GENERICS_REGEX.sub('', value)` pass; each
step consumes at least one character, so a fuel equal to the input length
never runs out. -/
def genericsSubAux : Nat → Str → Str
  | 0, s => s
  | _ + 1, [] => []
  | fuel + 1, c :: rest =>
    if c = '<' then
      match genericsGroupEnd rest with
      | some rest2 => genericsSubAux fuel rest2
      | none => c :: genericsSubAux fuel rest
    else
      c :: genericsSubAux fuel rest

/-- One pass of the generics-stripping regex substitution: every
non-overlapping leftmost match of an angle-bracket group with no nested
bracket and no newline inside is removed. -/
def genericsSub (s : Str) : Str :=
  genericsSubAux s.length s

/-- The `while True` loop of `remove_generics`, with an explicit iteration
bound: apply `genericsSub` until the length stops changing, or give up when
the bound is exhausted. -/
def removeGenericsAux : Nat → Str → Option Str
  | 0, _ => none
  | fuel + 1, value =>
    let ret := genericsSub value
    if ret.length = value.length then some ret
    else removeGenericsAux fuel ret

/-- The function `remove_generics` of `parse.py`; the iteration bound of
one more than the input length is proved sufficient in
`remove_generics_C8`. -/
def remove_generics (s : Str) : Str :=
  (removeGenericsAux (s.length + 1) s).getD s

/-- Modelled from the spec: `java_types.py` is not part of the sources;
section 3 describes JavaType as a non-negative array dimension plus exactly
one of a primitive name (from the fixed nine-element set) or a class
reference (a slash-delimited fully qualified path). -/
structure JavaType where
  array_dimensions : Nat
  primitive_name : Option Str
  java_class : Option Str
  annotations : List (Str × Option Str) := []
deriving DecidableEq

/-- Modelled from the spec: the JNI descriptor encoding of a JavaType (one
leading array marker per array dimension, then the single-letter primitive
code or the class path wrapped in `L...;`), as described in sections 3
and 4.1. -/
def JavaType.to_descriptor (t : JavaType) : Str :=
  List.replicate t.array_dimensions '[' ++
    (match t.primitive_name with
     | some p =>
       match primitiveMap p with
       | some c => [c]
       | none => []
     | none => 'L' :: ((t.java_class.getD []) ++ [';']))

/-- Modelled from the spec: JavaSignature is an ordered pair of return type
and parameter types (section 3). -/
structure JavaSignature where
  return_type : JavaType
  param_types : List JavaType
deriving DecidableEq

/-- The character walk of `MangledType` over `descriptor[1:]`: array
markers become `A`, characters that are uppercase or preceded by a slash
or an `L` are appended uppercased, everything else is dropped. -/
def mangleWalk : Char → Str → Str
  | _, [] => []
  | prev, c :: rest =>
    if c = '[' then
      'A' :: mangleWalk c rest
    else if c.isUpper || prev = '/' || prev = 'L' then
      c.toUpper :: mangleWalk c rest
    else
      mangleWalk c rest

/-- Straight translation of `MangledType` in `jni_generator.py`. -/
def MangledType (t : JavaType) : Str :=
  let descriptor := t.to_descriptor
  if descriptor.length ≤ 2 then
    pyReplace descriptor "[".data "A".data
  else
    match descriptor with
    | [] => []
    | c0 :: rest => mangleWalk c0 rest

/-- Truthiness of the Python check `re.match(r'[0-9a-zA-Z_]+', s)`: the
anchored match succeeds exactly when the first character of `s` belongs to
the class, regardless of the remaining characters. -/
def assertMatchIdent (s : Str) : Bool :=
  match s with
  | [] => false
  | c :: _ => c.isAlphanum || c = '_'

/-- Straight translation of `GetMangledMethodName`, with the trailing
`assert` embedded as an AssertionError result. -/
def GetMangledMethodName (name : Str) (signature : JavaSignature) :
    Except PyErr Str :=
  let mangled_items :=
    (signature.return_type :: signature.param_types).map MangledType
  let mangled_name := name ++ pyJoin '_' mangled_items
  if assertMatchIdent mangled_name then
    .ok mangled_name
  else
    .error .assertionError

/-- The record built by `CalledByNative.__init__` (the derived fields
`env_call` and `static_cast` are native-code emission concerns computed
from the same data and are not modelled). -/
structure CalledByNative where
  system_class : Bool
  unchecked : Bool
  static : Bool
  java_class_name : Str
  name : Str
  signature : JavaSignature
  is_constructor : Bool
  descriptor : Option Str
  method_id_var_name : Option Str
deriving DecidableEq

/-- Sequencing over `Except`, keeping the order of the list (the loop body
of the extraction functions). -/
def mapExcept {α β : Type} (f : α → Except PyErr β) :
    List α → Except PyErr (List β)
  | [] => .ok []
  | a :: more =>
    match f a with
    | .error e => .error e
    | .ok b =>
      match mapExcept f more with
      | .error e => .error e
      | .ok bs => .ok (b :: bs)

/-- Straight translation of `MangleCalledByNatives`: count occurrences of
each (owning class, name) pair over the whole list, then give unique
methods their plain name and overloaded methods the mangled name. -/
def MangleCalledByNatives (called_by_natives : List CalledByNative) :
    Except PyErr (List CalledByNative) :=
  mapExcept (fun c =>
    if called_by_natives.countP (fun d =>
        d.java_class_name = c.java_class_name && d.name = c.name) > 1 then
      match GetMangledMethodName c.name c.signature with
      | .error e => .error e
      | .ok m => .ok { c with method_id_var_name := some m }
    else
      .ok { c with method_id_var_name := some c.name }) called_by_natives

/-- A called-by-native method foo whose return type is a class resolved
into an empty package (a default-package class, as produced by the
bytecode path), with one int parameter. -/
def cbnFooBadReturn : CalledByNative :=
  { system_class := false
    unchecked := false
    static := false
    java_class_name := []
    name := "foo".data
    signature :=
      { return_type :=
          { array_dimensions := 0
            primitive_name := none
            java_class := some "/a".data }
        param_types :=
          [{ array_dimensions := 0
             primitive_name := some "int".data
             java_class := none }] }
    is_constructor := false
    descriptor := none
    method_id_var_name := none }

/-- An overload of foo in the same class: void return, one long
parameter. -/
def cbnFooLong : CalledByNative :=
  { system_class := false
    unchecked := false
    static := false
    java_class_name := []
    name := "foo".data
    signature :=
      { return_type :=
          { array_dimensions := 0
            primitive_name := some "void".data
            java_class := none }
        param_types :=
          [{ array_dimensions := 0
             primitive_name := some "long".data
             java_class := none }] }
    is_constructor := false
    descriptor := none
    method_id_var_name := none }

/-- Python string comparison (code-point lexicographic), as used by the
sort keys of the extraction functions. -/
def strCmp : Str → Str → Ordering
  | [], [] => .eq
  | [], _ :: _ => .lt
  | _ :: _, [] => .gt
  | a :: xs, b :: ys =>
    if a.toNat < b.toNat then .lt
    else if b.toNat < a.toNat then .gt
    else strCmp xs ys

/-- Python tuple comparison over string components, as used by the sort
keys (name, signature) and (class, name, signature). -/
def keyCmp : List Str → List Str → Ordering
  | [], [] => .eq
  | [], _ :: _ => .lt
  | _ :: _, [] => .gt
  | a :: xs, b :: ys =>
    match strCmp a b with
    | .eq => keyCmp xs ys
    | o => o

/-- The less-or-equal relation induced by a key comparison. -/
def keyLE (ka kb : List Str) : Bool :=
  match keyCmp ka kb with
  | .gt => false
  | _ => true

/-- Stable insertion step of the Python sort: an element is placed before
the first strictly larger element, after any equal one. -/
def pyInsertSorted {α : Type} (le : α → α → Bool) (a : α) : List α → List α
  | [] => [a]
  | b :: l => if le a b then a :: b :: l else b :: pyInsertSorted le a l

/-- A stable sort with the same result as the Python `list.sort`: sorted by
the key order, elements with equal keys kept in input order. -/
def pySort {α : Type} (le : α → α → Bool) : List α → List α
  | [] => []
  | x :: xs => pyInsertSorted le x (pySort le xs)

/-- Result of a backtracking match attempt: a successful value, a definite
mismatch, or fuel exhaustion of the model. -/
inductive MRes (α : Type) where
  | found : α → MRes α
  | nomatch : MRes α
  | fuelOut : MRes α
deriving DecidableEq

/-- Ordered choice with backtracking: the second branch runs only when the
first is a definite mismatch; fuel exhaustion is propagated. -/
def morElse {α : Type} : MRes α → (Unit → MRes α) → MRes α
  | .nomatch, f => f ()
  | r, _ => r

/-- Quantifier of a regex group: single, greedy optional, greedy star and
lazy star. -/
inductive GQuant where
  | one
  | opt
  | star
  | starLazy

/-- Abstract syntax of the embedded regular expressions: literal text, one
character from a class, a starred character class (with greedy flag), a
word boundary, and a group of ordered alternatives with a quantifier and
an optional capture index. -/
inductive RItem where
  | lit : Str → RItem
  | cls : (Char → Bool) → RItem
  | star : (Char → Bool) → Bool → RItem
  | bnd : RItem
  | grp : Option Nat → List (List RItem) → GQuant → RItem

/-- Captured groups, most recent assignment first. -/
abbrev Caps := List (Nat × Str)

/-- Record the span consumed between `before` and `after` for a capturing
group. -/
def setCap (idx : Option Nat) (before after : Str) (caps : Caps) : Caps :=
  match idx with
  | none => caps
  | some i => (i, before.take (before.length - after.length)) :: caps

/-- Read a captured group; an absent entry is the Python group value
`None`. -/
def getCap (i : Nat) (caps : Caps) : Option Str :=
  (caps.find? (fun p => p.1 = i)).map (fun p => p.2)

/-- The Python regex word-character class `\w` (ASCII range, which covers
every input of this code base). -/
def isWordChar (c : Char) : Bool :=
  c.isAlphanum || c = '_'

mutual

/-- Backtracking matcher in continuation-passing style, following the
Python regex semantics of the constructs used by the generator patterns:
ordered alternation, greedy and lazy character-class repetition with full
backtracking, greedy optional and starred groups (a starred group stops on
an empty iteration), captures recording the last assignment, and word
boundaries judged from the previously consumed character. The fuel bounds
the number of matcher steps. -/
def mtch {α : Type} : Nat → List RItem → Str → Option Char → Caps →
    (Str → Option Char → Caps → MRes α) → MRes α
  | 0, _, _, _, _, _ => .fuelOut
  | _ + 1, [], s, prev, caps, k => k s prev caps
  | fuel + 1, .lit l :: rest, s, prev, caps, k =>
    if isPre l s then
      mtch fuel rest (s.drop l.length)
        (match l.getLast? with
         | some c => some c
         | none => prev) caps k
    else
      .nomatch
  | fuel + 1, .cls f :: rest, s, _, caps, k =>
    match s with
    | [] => .nomatch
    | c :: s2 => if f c then mtch fuel rest s2 (some c) caps k else .nomatch
  | fuel + 1, .star f greedy :: rest, s, prev, caps, k =>
    let more := fun (_ : Unit) =>
      match s with
      | c :: s2 =>
        if f c then mtch fuel (.star f greedy :: rest) s2 (some c) caps k
        else .nomatch
      | [] => .nomatch
    let stop := fun (_ : Unit) => mtch fuel rest s prev caps k
    if greedy then morElse (more ()) stop else morElse (stop ()) more
  | fuel + 1, .bnd :: rest, s, prev, caps, k =>
    let pw := match prev with
      | some c => isWordChar c
      | none => false
    let nw := match s with
      | c :: _ => isWordChar c
      | [] => false
    if pw ≠ nw then mtch fuel rest s prev caps k else .nomatch
  | fuel + 1, .grp idx alts q :: rest, s, prev, caps, k =>
    match q with
    | .one =>
      tryAlts fuel idx alts s prev caps
        (fun s2 p2 c2 => mtch fuel rest s2 p2 c2 k)
    | .opt =>
      morElse
        (tryAlts fuel idx alts s prev caps
          (fun s2 p2 c2 => mtch fuel rest s2 p2 c2 k))
        (fun _ => mtch fuel rest s prev caps k)
    | .star =>
      morElse
        (tryAlts fuel idx alts s prev caps
          (fun s2 p2 c2 =>
            if s2.length = s.length then
              mtch fuel rest s2 p2 c2 k
            else
              mtch fuel (.grp idx alts .star :: rest) s2 p2 c2 k))
        (fun _ => mtch fuel rest s prev caps k)
    | .starLazy =>
      morElse
        (mtch fuel rest s prev caps k)
        (fun _ => tryAlts fuel idx alts s prev caps
          (fun s2 p2 c2 =>
            if s2.length = s.length then
              mtch fuel rest s2 p2 c2 k
            else
              mtch fuel (.grp idx alts .starLazy :: rest) s2 p2 c2 k))

/-- Try the alternatives of a group in order, recording the capture on
success before running the continuation. -/
def tryAlts {α : Type} : Nat → Option Nat → List (List RItem) → Str →
    Option Char → Caps → (Str → Option Char → Caps → MRes α) → MRes α
  | 0, _, _, _, _, _, _ => .fuelOut
  | _ + 1, _, [], _, _, _, _ => .nomatch
  | fuel + 1, idx, alt :: more, s, prev, caps, k2 =>
    morElse
      (mtch fuel alt s prev caps
        (fun s2 p2 c2 => k2 s2 p2 (setCap idx s s2 c2)))
      (fun _ => tryAlts fuel idx more s prev caps k2)

end

/-- Attempt to match a pattern at the beginning of the given text; `prev`
is the character just before this position (for word boundaries). -/
def matchHere (mfuel : Nat) (pat : List RItem) (s : Str) (prev : Option Char) :
    MRes (Caps × Str) :=
  mtch mfuel pat s prev [] (fun s2 _ c2 => .found (c2, s2))

/-- Scanner implementing `finditer` and `sub(pattern, '', text)` in one
pass: the capture lists of all non-overlapping leftmost matches, paired
with the text that remains when every match is removed. Fuel exhaustion and
empty matches (which no embedded pattern can produce) are reported as the
model failure `fuelExhausted`. -/
def reScanAux (mfuel : Nat) (pat : List RItem) :
    Nat → Str → Option Char → Except PyErr (List Caps × Str)
  | 0, _, _ => .error .fuelExhausted
  | fuel + 1, s, prev =>
    match matchHere mfuel pat s prev with
    | .fuelOut => .error .fuelExhausted
    | .found (caps, rest) =>
      if rest.length = s.length then
        .error .fuelExhausted
      else
        match reScanAux mfuel pat fuel rest
            ((s.take (s.length - rest.length)).getLast?) with
        | .error e => .error e
        | .ok (ms, res) => .ok (caps :: ms, res)
    | .nomatch =>
      match s with
      | [] => .ok ([], [])
      | c :: s2 =>
        match reScanAux mfuel pat fuel s2 (some c) with
        | .error e => .error e
        | .ok (ms, res) => .ok (ms, c :: res)

/-- Fuel supplied to the matcher for a text of the given length; exhaustion
is observable, never silent. -/
def engineFuel (s : Str) : Nat :=
  100000 + 100 * s.length

/-- All matches of the pattern over the text together with the residual
text (Python `finditer` order and `re.sub` with empty replacement). -/
def reScan (pat : List RItem) (s : Str) : Except PyErr (List Caps × Str) :=
  reScanAux (engineFuel s) pat (s.length + 1) s none

/-- The Python regex whitespace class `\s` (ASCII range). -/
def isSpaceChar (c : Char) : Bool :=
  c = ' ' || c = '\t' || c = '\n' || c = '\r' ||
  c = (Char.ofNat 11) || c = (Char.ofNat 12)

/-- The complement class `\S`. -/
def isNonSpaceChar (c : Char) : Bool :=
  !isSpaceChar c

/-- Any character, as matched by `.` under `re.DOTALL`. -/
def anyChar (_ : Char) : Bool :=
  true

/-- Any character except a newline, as matched by `.` without
`re.DOTALL`. -/
def notNLChar (c : Char) : Bool :=
  c ≠ '\n'

/-- The class `[^\)]`. -/
def notRParenChar (c : Char) : Bool :=
  c ≠ ')'

/-- The class `[\w.]` of the annotation pattern. -/
def isWordDotChar (c : Char) : Bool :=
  isWordChar c || c = '.'

/-- The `_EXTRACT_NATIVES_REGEX` of `jni_generator.py` (compiled with
`re.DOTALL`), as engine items. Captures: 0 native_class_name,
1 qualifiers, 2 return_type, 3 name, 4 params. -/
def reExtractNatives : List RItem :=
  [.grp none [[
      .lit "@NativeClassQualifiedName(\"".data,
      .grp (some 0) [[.star isNonSpaceChar false]] .one,
      .lit "\")".data,
      .cls isSpaceChar, .star isSpaceChar true]] .opt,
   .grp (some 1) [
      [.cls isWordChar, .star isWordChar true, .cls isSpaceChar,
       .cls isWordChar, .star isWordChar true],
      [.cls isWordChar, .star isWordChar true],
      [.cls isSpaceChar, .star isSpaceChar true]] .one,
   .star isSpaceChar true,
   .lit "native".data,
   .cls isSpaceChar, .star isSpaceChar true,
   .grp (some 2) [[.star isNonSpaceChar true]] .one,
   .cls isSpaceChar, .star isSpaceChar true,
   .grp (some 3) [[.lit "native".data, .cls isWordChar,
                   .star isWordChar true]] .one,
   .lit "(".data,
   .grp (some 4) [[.star anyChar false]] .one,
   .lit ");".data]

/-- The `RE_CALLED_BY_NATIVE` pattern of `jni_generator.py` (compiled
without `re.DOTALL`), as engine items. Captures: 0 Unchecked,
1 annotation, 2 prefix, 3 return_type, 4 name, 5 params. -/
def reCalledByNative : List RItem :=
  [.lit "@CalledByNative".data,
   .grp (some 0) [
      [.grp none [[.lit "Unchecked".data]] .opt],
      [.lit "ForTesting".data]] .one,
   .grp none [[.lit "(\"".data,
               .grp (some 1) [[.star notNLChar true]] .one,
               .lit "\")".data]] .opt,
   .grp none [[.cls isSpaceChar, .star isSpaceChar true, .lit "@".data,
               .cls isWordChar, .star isWordChar true,
               .grp none [[.lit "(".data, .star notNLChar true,
                           .lit ")".data]] .opt]] .star,
   .cls isSpaceChar, .star isSpaceChar true,
   .grp (some 2) [[
      .grp none [[
        .grp none [[.lit "private".data], [.lit "protected".data],
                   [.lit "public".data], [.lit "static".data],
                   [.lit "abstract".data], [.lit "final".data],
                   [.lit "default".data], [.lit "synchronized".data]] .one,
        .star isSpaceChar true]] .star]] .one,
   .grp none [[.star isSpaceChar true, .lit "@".data,
               .cls isWordChar, .star isWordChar true]] .opt,
   .star isSpaceChar true,
   .grp (some 3) [[.star isNonSpaceChar false]] .one,
   .star isSpaceChar true,
   .grp (some 4) [[.cls isWordChar, .star isWordChar true]] .one,
   .star isSpaceChar true,
   .lit "(".data,
   .grp (some 5) [[.star notRParenChar true]] .one,
   .lit ")".data]

/-- The `_ANNOTATION_REGEX` of `parse.py` (supports `@Foo` and
`@Foo("value")`). Captures: 0 name, 1 value. -/
def reAnnot : List RItem :=
  [.lit "@".data,
   .grp (some 0) [[.cls isWordDotChar, .star isWordDotChar true]] .one,
   .grp none [[.lit "(".data, .star isSpaceChar true, .lit "\"".data,
               .grp (some 1) [[.star notNLChar false]] .one,
               .lit "\"".data, .star isSpaceChar true,
               .lit ")".data]] .opt,
   .star isSpaceChar true]

/-- Scanner for `_parse_annotations`: all annotation matches over the text
together with the text after the end of the last match (Python
`value[last_idx:]`); `none` in the second component means no match was
found in the scanned suffix. -/
def annScanAux (mfuel : Nat) :
    Nat → Str → Option Char →
    Except PyErr (List (Str × Option Str) × Option Str)
  | 0, _, _ => .error .fuelExhausted
  | fuel + 1, s, prev =>
    match matchHere mfuel reAnnot s prev with
    | .fuelOut => .error .fuelExhausted
    | .found (caps, rest) =>
      if rest.length = s.length then
        .error .fuelExhausted
      else
        match annScanAux mfuel fuel rest
            ((s.take (s.length - rest.length)).getLast?) with
        | .error e => .error e
        | .ok (anns, tl) =>
          .ok (((getCap 0 caps).getD [], getCap 1 caps) :: anns,
               some (tl.getD rest))
    | .nomatch =>
      match s with
      | [] => .ok ([], none)
      | c :: s2 =>
        match annScanAux mfuel fuel s2 (some c) with
        | .error e => .error e
        | .ok (anns, tl) => .ok (anns, tl)

/-- The function `_parse_annotations` of `parse.py`: the annotation
name-value pairs found in the text, and the text after the last match. -/
def pyParseAnnotations (value : Str) :
    Except PyErr (List (Str × Option Str) × Str) :=
  match annScanAux (engineFuel value) (value.length + 1) value none with
  | .error e => .error e
  | .ok (anns, tl) => .ok (anns, tl.getD value)

/-- Modelled from the spec: the `PRIMITIVES` set of the missing
`java_types.py` is the fixed nine-element primitive name set, identical to
the keys of the `_PRIMITIVE_MAP` table. -/
def javaPrimitivesContains (s : Str) : Bool :=
  (primitiveMap s).isSome

/-- The function `parse_type` of `parse.py`, with the resolver passed as a
function from the type text to the fully qualified path. -/
def parse_type (resolve : Str → Except PyErr Str) (value : Str) :
    Except PyErr JavaType :=
  match pyParseAnnotations value with
  | .error e => .error e
  | .ok (annotations, value1) =>
    let stripped := stripArraySuffix value1
    if javaPrimitivesContains stripped.2 then
      .ok { array_dimensions := stripped.1
            primitive_name := some stripped.2
            java_class := none
            annotations := annotations }
    else
      match resolve stripped.2 with
      | .error e => .error e
      | .ok jc =>
        .ok { array_dimensions := stripped.1
              primitive_name := none
              java_class := some jc
              annotations := annotations }

/-- Python `s.strip()` for the whitespace characters used here. -/
def pyStrip (s : Str) : Str :=
  ((s.dropWhile isSpaceChar).reverse.dropWhile isSpaceChar).reverse

/-- Python `s.rstrip()`. -/
def pyRStrip (s : Str) : Str :=
  (s.reverse.dropWhile isSpaceChar).reverse

/-- Python `s.rpartition(' ')` restricted to the two components the code
uses: text before the last space, text after it; with no space the first
component is empty and the second is the whole string. -/
def pyRPartitionSpace (s : Str) : Str × Str :=
  match s.reverse.findIdx? (fun c => c = ' ') with
  | none => ([], s)
  | some i => ((s.reverse.drop (i + 1)).reverse, (s.reverse.take i).reverse)

/-- Fuel-driven worker removing every occurrence of a word-boundary-guarded
word followed by one whitespace character (the substitutions
`re.sub(r'\bfinal\s', '', value)` and `re.sub(r'\bpublic\s', '', value)`);
the boolean tracks whether the previous character was a word character. -/
def removeWordSpaceAux (word : Str) : Nat → Bool → Str → Str
  | 0, _, s => s
  | _ + 1, _, [] => []
  | fuel + 1, prevW, c :: rest =>
    if !prevW && isPre word (c :: rest) &&
        (match (c :: rest).drop word.length with
         | d :: _ => isSpaceChar d
         | [] => false) then
      removeWordSpaceAux word fuel false ((c :: rest).drop (word.length + 1))
    else
      c :: removeWordSpaceAux word fuel (isWordChar c) rest

/-- The `_FINAL_REGEX` substitution of `parse_param_list`. -/
def pyRemoveFinal (s : Str) : Str :=
  removeWordSpaceAux "final".data (s.length + 1) false s

/-- The `_PUBLIC_REGEX` substitution of `_parse_proxy_natives`. -/
def pyRemovePublic (s : Str) : Str :=
  removeWordSpaceAux "public".data (s.length + 1) false s

/-- Decimal digits of a number, for the positional parameter names
`p0, p1, ...` of the name-less parsing mode. -/
def natToStr (n : Nat) : Str :=
  Nat.toDigits 10 n

/-- One parameter of `java_types`: a type and a name. -/
structure JavaParam where
  java_type : JavaType
  name : Str
deriving DecidableEq

/-- The varargs step of `parse_param_list`: a type text ending in `...`
has that suffix replaced by an array marker pair before parsing. -/
def varargsAdjust (t : Str) : Str :=
  if pyEndsWith t "...".data then
    t.dropLast.dropLast.dropLast ++ "[]".data
  else
    t

/-- The body of the parameter loop of `parse_param_list`: strip, split off
the trailing name when parameters are named, rewrite a varargs marker into
an array marker, and parse the type text. -/
def parseOneParam (resolve : Str → Except PyErr Str) (has_names : Bool)
    (idx : Nat) (param_str0 : Str) : Except PyErr JavaParam :=
  let p := pyStrip param_str0
  let split :=
    if has_names then
      let pr := pyRPartitionSpace p
      (pyRStrip pr.1, pr.2)
    else
      (p, 'p' :: natToStr idx)
  match parse_type resolve (varargsAdjust split.1) with
  | .error e => .error e
  | .ok jt => .ok { java_type := jt, name := split.2 }

/-- The parameter loop of `parse_param_list` with the running index used
for positional names. -/
def parseParams (resolve : Str → Except PyErr Str) (has_names : Bool) :
    Nat → List Str → Except PyErr (List JavaParam)
  | _, [] => .ok []
  | idx, ps :: more =>
    match parseOneParam resolve has_names idx ps with
    | .error e => .error e
    | .ok param =>
      match parseParams resolve has_names (idx + 1) more with
      | .error e => .error e
      | .ok rest => .ok (param :: rest)

/-- The function `parse_param_list` of `parse.py`. -/
def parse_param_list (resolve : Str → Except PyErr Str) (value : Str)
    (has_names : Bool) : Except PyErr (List JavaParam) :=
  if value.isEmpty || value.all isSpaceChar then
    .ok []
  else
    parseParams resolve has_names 0 (pySplitOn ',' (pyRemoveFinal value))

/-- The record built by `NativeMethod.__init__` for a legacy (non-proxy)
native, with the fields the extraction stores (presentation-only derived
fields such as `cpp_name` are not modelled). -/
structure NativeMethod where
  name : Str
  params : List JavaParam
  signature : JavaSignature
  is_proxy : Bool
  static : Bool
  type : Str
  p0_type : Option Str
  method_id_var_name : Option Str
deriving DecidableEq

/-- The constructor logic of `NativeMethod.__init__` as invoked by
`ExtractNatives` (so `is_proxy` is false and no explicit `p0_type` is
passed): a leading primitive `long` parameter with a native-prefixed name
makes the method an instance ("method") native whose pointer type comes
from the parameter name, overridden by a non-empty
`@NativeClassQualifiedName` value. -/
def NativeMethod.make (static : Bool) (native_class_name : Option Str)
    (return_type : JavaType) (params : List JavaParam) (name : Str) :
    NativeMethod :=
  let signature : JavaSignature :=
    { return_type := return_type
      param_types := params.map (fun p => p.java_type) }
  let tp : Str × Option Str :=
    match params with
    | p1 :: _ =>
      if p1.java_type.primitive_name = some "long".data &&
          isPre "native".data p1.name then
        ("method".data,
         some (match native_class_name with
           | some ncn => if ncn ≠ [] then ncn else p1.name.drop 6
           | none => p1.name.drop 6))
      else
        ("function".data, none)
    | [] => ("function".data, none)
  { name := name
    params := params
    signature := signature
    is_proxy := false
    static := static
    type := tp.1
    p0_type := tp.2
    method_id_var_name := none }

/-- Modelled from the spec: JavaSignature is comparable and sortable
(section 3); the key orders signatures by their descriptor encoding. -/
def signatureKey (sig : JavaSignature) : Str :=
  '(' :: (sig.param_types.map JavaType.to_descriptor).flatten ++
    ')' :: sig.return_type.to_descriptor

/-- The sort key (name, signature) of `ExtractNatives`. -/
def natSortKey (n : NativeMethod) : List Str :=
  [n.name, signatureKey n.signature]

/-- The sort key (owning class name, name, signature) of
`ExtractCalledByNatives`. -/
def cbnSortKey (c : CalledByNative) : List Str :=
  [c.java_class_name, c.name, signatureKey c.signature]

/-- Construction of one native from the named groups of an
`_EXTRACT_NATIVES_REGEX` match, as in the loop of `ExtractNatives`: the
stored name is the declared name with every occurrence of the substring
`native` removed by `str.replace`. -/
def natFromMatch (resolve : Str → Except PyErr Str) (caps : Caps) :
    Except PyErr NativeMethod :=
  match parse_type resolve ((getCap 2 caps).getD []) with
  | .error e => .error e
  | .ok return_type =>
    match parse_param_list resolve ((getCap 4 caps).getD []) true with
    | .error e => .error e
    | .ok params =>
      .ok (NativeMethod.make
        (pyContains ((getCap 1 caps).getD []) "static".data)
        (getCap 0 caps)
        return_type
        params
        (pyReplace ((getCap 3 caps).getD []) "native".data "".data))

/-- The function `ExtractNatives` of `jni_generator.py`: all regex matches
turned into NativeMethod records, sorted by (name, signature). -/
def ExtractNatives (resolve : Str → Except PyErr Str) (contents : Str) :
    Except PyErr (List NativeMethod) :=
  match reScan reExtractNatives contents with
  | .error e => .error e
  | .ok (mlist, _) =>
    match mapExcept (natFromMatch resolve) mlist with
    | .error e => .error e
    | .ok natives =>
      .ok (pySort (fun a b => keyLE (natSortKey a) (natSortKey b)) natives)

/-- Construction of one entry from the named groups of an
`RE_CALLED_BY_NATIVE` match, as in the loop of `ExtractCalledByNatives`:
an empty return type marks a constructor, whose matched name text is
actually the constructed type and whose stored name is the sentinel
Constructor. -/
def cbnFromMatch (resolve : Str → Except PyErr Str) (caps : Caps) :
    Except PyErr CalledByNative :=
  let return_type0 := (getCap 3 caps).getD []
  let name0 := (getCap 4 caps).getD []
  let is_ctor := return_type0.isEmpty
  let return_type1 := if is_ctor then name0 else return_type0
  let name1 := if is_ctor then "Constructor".data else name0
  match parse_type resolve return_type1 with
  | .error e => .error e
  | .ok rt =>
    match parse_param_list resolve ((getCap 5 caps).getD []) true with
    | .error e => .error e
    | .ok params =>
      .ok { system_class := false
            unchecked := pyContains ((getCap 0 caps).getD []) "Unchecked".data
            static := pyContains ((getCap 2 caps).getD []) "static".data
            java_class_name := (getCap 1 caps).getD []
            name := name1
            signature :=
              { return_type := rt
                param_types := params.map (fun p => p.java_type) }
            is_constructor := is_ctor
            descriptor := none
            method_id_var_name := none }

/-- The residual check of `ExtractCalledByNatives`
(`zip(unmatched_lines, unmatched_lines[1:])`): each line is inspected
paired with its successor, so the final line has no pair and is never
inspected. -/
def checkUnmatchedLines : List Str → Except PyErr Unit
  | [] => .ok ()
  | [_] => .ok ()
  | l1 :: l2 :: rest =>
    if pyContains l1 "@CalledByNative".data then
      .error (.parseError
        "could not parse @CalledByNative method signature".data l1 l2)
    else
      checkUnmatchedLines (l2 :: rest)

/-- The function `ExtractCalledByNatives` of `jni_generator.py`: collect
and build all matches, fail on an annotation occurrence left in a checked
line of the match-stripped residual, sort by (class, name, signature) and
run overload mangling. -/
def ExtractCalledByNatives (resolve : Str → Except PyErr Str)
    (contents : Str) : Except PyErr (List CalledByNative) :=
  match reScan reCalledByNative contents with
  | .error e => .error e
  | .ok (mlist, residual) =>
    match mapExcept (cbnFromMatch resolve) mlist with
    | .error e => .error e
    | .ok called_by_natives =>
      match checkUnmatchedLines (pySplitOn '\n' residual) with
      | .error e => .error e
      | .ok _ =>
        MangleCalledByNatives
          (pySort (fun a b => keyLE (cbnSortKey a) (cbnSortKey b))
            called_by_natives)

/-- The `_NATIVE_PROXY_EXTRACTION_REGEX` of `parse.py`, as engine items.
Captures: 0 module_name, 1 visibility, 2 interface_name,
3 interface_body. -/
def reNativeProxy : List RItem :=
  [.lit "@NativeMethods".data,
   .grp none [[.lit "(".data, .star isSpaceChar true, .lit "\"".data,
               .grp (some 0) [[.cls isWordChar, .star isWordChar true]] .one,
               .lit "\"".data, .star isSpaceChar true,
               .lit ")".data]] .opt,
   .cls anyChar, .star anyChar false,
   .grp (some 1) [[.lit "public".data]] .opt,
   .star isSpaceChar true,
   .bnd,
   .lit "interface".data,
   .star isSpaceChar true,
   .grp (some 2) [[.star isWordChar true]] .one,
   .star isSpaceChar true,
   .lit "\x7b".data,
   .grp (some 3) [[
      .grp none [[.star isSpaceChar true, .star notNLChar true]] .one,
      .grp none [[.star isSpaceChar true, .star notNLChar true]] .starLazy,
      .star isSpaceChar true]] .one,
   .lit "\x7d".data]

/-- The `_EXTRACT_METHODS_REGEX` of `parse.py` (compiled with `re.DOTALL`).
Captures: 0 preamble, 1 name, 2 params. -/
def reExtractMethods : List RItem :=
  [.star isSpaceChar true,
   .grp (some 0) [[.star anyChar false]] .one,
   .cls isSpaceChar, .star isSpaceChar true,
   .grp (some 1) [[.cls isWordChar, .star isWordChar true]] .one,
   .lit "(".data,
   .grp (some 2) [[.star anyChar false]] .one,
   .lit ");".data]

/-- The `ParsedMethod` record of `parse.py`. -/
structure ParsedMethod where
  name : Str
  return_type : JavaType
  params : List JavaParam
  native_class_name : Option Str
deriving DecidableEq

/-- The `_ParsedProxyNatives` record of `parse.py`. -/
structure ParsedProxyNatives where
  interface_name : Str
  visibility : Option Str
  module_name : Option Str
  methods : List ParsedMethod
deriving DecidableEq

/-- Lookup in the annotation dictionary (`annotations.get(name)`): the last
assignment wins, a missing key and a valueless annotation both yield
`None`. -/
def annGet (anns : List (Str × Option Str)) (key : Str) : Option Str :=
  match anns.reverse.find? (fun p => p.1 = key) with
  | some p => p.2
  | none => none

/-- Modelled from the spec: `ParsedMethod` is declared comparable
(`dataclass(order=True)`, delegating to the missing `java_types.py`
orderings); the key orders methods by name, then return type, then
parameters, then native class name. -/
def pmSortKey (m : ParsedMethod) : List Str :=
  [m.name,
   m.return_type.to_descriptor,
   (m.params.map (fun p => p.java_type.to_descriptor ++ ' ' :: p.name)).flatten,
   (m.native_class_name).getD []]

/-- The method loop body of `_parse_proxy_natives`: strip a boundary-guarded
`public`, split the annotations off the preamble, parse the parameter list
and then the remaining preamble as the return type. -/
def pmFromMatch (resolve : Str → Except PyErr Str) (caps : Caps) :
    Except PyErr ParsedMethod :=
  let preamble := pyRemovePublic ((getCap 0 caps).getD [])
  match pyParseAnnotations preamble with
  | .error e => .error e
  | .ok (annotations, return_type_part) =>
    match parse_param_list resolve ((getCap 2 caps).getD []) true with
    | .error e => .error e
    | .ok params =>
      match parse_type resolve return_type_part with
      | .error e => .error e
      | .ok rt =>
        .ok { name := (getCap 1 caps).getD []
              return_type := rt
              params := params
              native_class_name :=
                annGet annotations "NativeClassQualifiedName".data }

/-- The function `_parse_proxy_natives` of `parse.py`: at most one
`@NativeMethods` interface, a fatal error on more than one or on an
interface with no extracted method, and the methods sorted. -/
def parseProxyNatives (resolve : Str → Except PyErr Str) (contents : Str) :
    Except PyErr (Option ParsedProxyNatives) :=
  match reScan reNativeProxy contents with
  | .error e => .error e
  | .ok (mlist, _) =>
    match mlist with
    | [] => .ok none
    | m1 :: more =>
      if more ≠ [] then
        .error (.syntaxError
          "Multiple @NativeMethod interfaces in one class is not supported.".data)
      else
        match reScan reExtractMethods ((getCap 3 m1).getD []) with
        | .error e => .error e
        | .ok (mms, _) =>
          match mapExcept (pmFromMatch resolve) mms with
          | .error e => .error e
          | .ok methods =>
            if methods.isEmpty then
              .error (.syntaxError
                "Found no methods within @NativeMethod interface.".data)
            else
              .ok (some
                { interface_name := (getCap 2 m1).getD []
                  visibility := getCap 1 m1
                  module_name := getCap 0 m1
                  methods := pySort
                    (fun a b => keyLE (pmSortKey a) (pmSortKey b)) methods })

/-- The plain int JavaType produced by parsing the text int with no
annotations. -/
def jtIntPlain : JavaType :=
  { array_dimensions := 0
    primitive_name := some "int".data
    java_class := none
    annotations := [] }

/-- The minimal legacy-native scenario file of the claim. -/
def fileC4 : Str :=
  "package p; class C \x7b public static native int nativeFoo(int x); \x7d".data

/-- The NativeMethod the extraction stores for `fileC4`. -/
def nativeFooExpected : NativeMethod :=
  NativeMethod.make true none jtIntPlain
    [{ java_type := jtIntPlain, name := "x".data }] "Foo".data

/-- A declaration whose method name contains the substring native twice. -/
def fileC4Counter : Str :=
  "class C \x7b public static native void nativeFoonativeBar(); \x7d".data

theorem pyReplaceAux_no_occurrence {old new : Str} :
    ∀ (fuel : Nat) (s : Str), pyContains s old = false →
      pyReplaceAux old new fuel s = s := by
  intro fuel
  induction fuel with
  | zero => intro s _; rfl
  | succ n ih =>
    intro s hs
    cases s with
    | nil => rfl
    | cons c rest =>
      unfold pyContains at hs
      rw [Bool.or_eq_false_iff] at hs
      unfold pyReplaceAux
      rw [if_neg, ih rest hs.2]
      simp [hs.1]

theorem getD_mem {α : Type} (l : List α) (i : Nat) (d : α)
    (h : i < l.length) : l.getD i d ∈ l := by
  induction l generalizing i with
  | nil => simp at h
  | cons a rest ih =>
    cases i with
    | zero => simp [List.getD]
    | succ j =>
      simp only [List.getD_cons_succ]
      exact List.mem_cons_of_mem a (ih j (by simpa using h))

theorem innerImportTest_no_indexError {r : TypeResolver} {q : Str}
    (hwf : importsWF r = true) (hq : q ∈ r.imports) :
    innerImportTest q ≠ .error .indexError := by
  unfold innerImportTest
  by_cases hlen : (pySplitOn '/' q).length > 2
  · simp only [hlen, if_true]
    have hseg : (pySplitOn '/' q).getD ((pySplitOn '/' q).length - 2) [] ∈
        pySplitOn '/' q := getD_mem _ _ _ (by omega)
    have hne : ((pySplitOn '/' q).getD ((pySplitOn '/' q).length - 2) []).isEmpty = false := by
      unfold importsWF at hwf
      rw [List.all_eq_true] at hwf
      have := hwf q hq
      rw [List.all_eq_true] at this
      have := this _ hseg
      simpa using this
    cases hh : ((pySplitOn '/' q).getD ((pySplitOn '/' q).length - 2) []).head? with
    | none =>
      cases hcs : (pySplitOn '/' q).getD ((pySplitOn '/' q).length - 2) [] with
      | nil => rw [hcs] at hne; simp [List.isEmpty] at hne
      | cons a b => rw [hcs] at hh; simp at hh
    | some c => simp
  · simp only [hlen, if_false]
    simp

theorem resolve_helper_eq_resolveSpec (r : TypeResolver) (param : Str)
    (hslash : pyContains param "/".data = false) :
    resolve_helper r param = resolveSpec r param := by
  unfold resolve_helper resolveSpec specRuleNested specRuleImport
    specRuleDottedImport specFallbackName
  rw [hslash]
  simp only [Bool.false_eq_true, if_false]
  cases hn : (r.fully_qualified_class :: r.inner_classes).find? (fun q =>
      pyEndsWith q ('/' :: param) ||
      pyEndsWith q ('$' :: pyReplace param ".".data "$".data) ||
      q = param) with
  | some q => rfl
  | none =>
    cases hi : r.imports.find? (fun q => pyEndsWith q ('/' :: param)) with
    | some q => rfl
    | none =>
      by_cases hdot : pyContains param ".".data = true
      · simp only [hdot, if_true]
        cases hd : r.imports.find? (fun q =>
            pyEndsWith q ('/' :: pyJoin '/' (pySplitOn '.' param).dropLast)) with
        | some q => rfl
        | none => rfl
      · rw [Bool.not_eq_true] at hdot
        simp only [hdot, Bool.false_eq_true, if_false]
        have hrepl : pyReplace param ".".data "$".data = param := by
          unfold pyReplace
          exact pyReplaceAux_no_occurrence _ param hdot
        rw [hrepl]

theorem innerImportTest_error_is_index {q : Str} {e : PyErr}
    (h : innerImportTest q = .error e) : e = .indexError := by
  unfold innerImportTest at h
  by_cases hlen : (pySplitOn '/' q).length > 2
  · simp only [hlen, if_true] at h
    cases hh : ((pySplitOn '/' q).getD ((pySplitOn '/' q).length - 2) []).head? with
    | none => rw [hh] at h; simpa using h.symm
    | some c => rw [hh] at h; simp at h
  · simp only [hlen, if_false] at h
    simp at h

theorem resolveSpec_nested_eq (r : TypeResolver) (param q : Str)
    (hn : specRuleNested r param = some q) :
    resolveSpec r param = .ok q := by
  unfold resolveSpec
  rw [hn]

theorem resolveSpec_import_eq (r : TypeResolver) (param q : Str)
    (hn : specRuleNested r param = none)
    (hi : specRuleImport r param = some q) :
    resolveSpec r param =
      (match innerImportTest q with
       | .error e => .error e
       | .ok true => .error (.syntaxError (innerClassImportMsg q param))
       | .ok false => .ok q) := by
  unfold resolveSpec
  rw [hn, hi]

theorem resolveSpec_no_import_eq (r : TypeResolver) (param : Str)
    (hn : specRuleNested r param = none)
    (hi : specRuleImport r param = none) :
    resolveSpec r param =
      (match specRuleDottedImport r param with
       | some q => .ok q
       | none =>
         let param2 := specFallbackName param
         if javaLangContains param2 then
           .ok ("java/lang/".data ++ param2)
         else
           .ok (r.package ++ '/' :: param2)) := by
  unfold resolveSpec
  rw [hn, hi]

theorem resolveSpec_error_cases (r : TypeResolver) (param : Str)
    (hwf : importsWF r = true) :
    ∀ e, resolveSpec r param = .error e →
      specRuleNested r param = none ∧
      ∃ q, specRuleImport r param = some q ∧ innerImportTest q = .ok true ∧
        e = .syntaxError (innerClassImportMsg q param) := by
  intro e he
  cases hn : specRuleNested r param with
  | some q => rw [resolveSpec_nested_eq r param q hn] at he; simp at he
  | none =>
    refine ⟨rfl, ?_⟩
    cases hi : specRuleImport r param with
    | some q =>
      rw [resolveSpec_import_eq r param q hn hi] at he
      have hqmem : q ∈ r.imports := by
        unfold specRuleImport at hi
        exact List.mem_of_find?_eq_some hi
      cases ht : innerImportTest q with
      | error e2 =>
        have := innerImportTest_error_is_index ht
        subst this
        exact absurd ht (innerImportTest_no_indexError hwf hqmem)
      | ok b =>
        cases b with
        | true =>
          rw [ht] at he
          refine ⟨q, rfl, ht, ?_⟩
          cases he
          rfl
        | false => rw [ht] at he; simp at he
    | none =>
      rw [resolveSpec_no_import_eq r param hn hi] at he
      cases hd : specRuleDottedImport r param with
      | some q => rw [hd] at he; simp at he
      | none =>
        rw [hd] at he
        by_cases hj : javaLangContains (specFallbackName param) = true
        · simp only [hj, if_true] at he; simp at he
        · simp only [hj, Bool.false_eq_true, if_false] at he; simp at he

theorem resolveSpec_inner_import_error (r : TypeResolver) (param : Str)
    (hnested : specRuleNested r param = none) :
    ∀ q, specRuleImport r param = some q → innerImportTest q = .ok true →
      resolveSpec r param = .error (.syntaxError (innerClassImportMsg q param)) := by
  intro q hi ht
  rw [resolveSpec_import_eq r param q hnested hi, ht]

/-- C1: for a slash-free type reference (with well-formed registered
imports), the resolver follows exactly the five-rule precedence of the
spec, first match wins, and the result is an error only in the
inner-class-import case of rule 2; otherwise a slash-free name always
resolves. -/
theorem resolver_precedence_C1 (r : TypeResolver) (param : Str)
    (hslash : pyContains param "/".data = false)
    (hwf : importsWF r = true) :
    resolve_helper r param = resolveSpec r param ∧
    ∀ e, resolve_helper r param = .error e →
      specRuleNested r param = none ∧
      ∃ q, specRuleImport r param = some q ∧ innerImportTest q = .ok true ∧
        e = .syntaxError (innerClassImportMsg q param) := by
  have heq := resolve_helper_eq_resolveSpec r param hslash
  refine ⟨heq, ?_⟩
  intro e he
  rw [heq] at he
  exact resolveSpec_error_cases r param hwf e he

/-- Closed witness for `resolver_precedence_C1` at a concrete resolver. -/
theorem resolver_precedence_C1_witness :
    resolve_helper ⟨"p/C".data, ["a/b/Util".data], []⟩ "Util".data =
      resolveSpec ⟨"p/C".data, ["a/b/Util".data], []⟩ "Util".data ∧
    ∀ e, resolve_helper ⟨"p/C".data, ["a/b/Util".data], []⟩ "Util".data = .error e →
      specRuleNested ⟨"p/C".data, ["a/b/Util".data], []⟩ "Util".data = none ∧
      ∃ q, specRuleImport ⟨"p/C".data, ["a/b/Util".data], []⟩ "Util".data = some q ∧
        innerImportTest q = .ok true ∧
        e = .syntaxError (innerClassImportMsg q "Util".data) :=
  resolver_precedence_C1 ⟨"p/C".data, ["a/b/Util".data], []⟩ "Util".data
    (by decide) (by decide)

/-- C9: a type reference containing a slash (as produced by the
bytecode-derived path) is returned unchanged by the resolver, bypassing
every precedence rule. -/
theorem slash_passthrough_C9 (r : TypeResolver) (param : Str)
    (h : pyContains param "/".data = true) :
    resolve_helper r param = .ok param := by
  unfold resolve_helper
  rw [h]
  simp

/-- Closed witness for `slash_passthrough_C9`. -/
theorem slash_passthrough_C9_witness :
    resolve_helper ⟨"p/C".data, ["x/Foo".data], []⟩ "java/util/List".data =
      .ok "java/util/List".data :=
  slash_passthrough_C9 ⟨"p/C".data, ["x/Foo".data], []⟩ "java/util/List".data
    (by decide)

/-- Counterexample for C6 as stated: the reference Foo suffix-matches the
registered import a/Outer/mid/Foo, whose path has an uppercase segment
(Outer) followed by another segment, and no enclosing or nested class
matches, yet resolution returns the import path instead of raising an
error, because the code only inspects the second-to-last segment. -/
theorem inner_import_error_C6_counterexample :
    specRuleNested ⟨"p/C".data, ["a/Outer/mid/Foo".data], []⟩ "Foo".data = none ∧
    specRuleImport ⟨"p/C".data, ["a/Outer/mid/Foo".data], []⟩ "Foo".data =
      some "a/Outer/mid/Foo".data ∧
    upperSegmentFollowed (pySplitOn '/' "a/Outer/mid/Foo".data) = true ∧
    resolve_helper ⟨"p/C".data, ["a/Outer/mid/Foo".data], []⟩ "Foo".data =
      .ok "a/Outer/mid/Foo".data := by
  refine ⟨by decide, by decide, by decide, by decide⟩

/-- C6 as amended: for a slash-free reference with well-formed imports and
no enclosing or nested class match, resolution raises an error exactly when
the first registered import whose path ends with the reference has more
than two slash-separated segments and its second-to-last segment begins
with an uppercase character; the raised message tells the user to import
the outer class and use dotted access instead. -/
theorem inner_import_error_C6 (r : TypeResolver) (param : Str)
    (hslash : pyContains param "/".data = false)
    (hwf : importsWF r = true)
    (hnested : specRuleNested r param = none) :
    ((∃ e, resolve_helper r param = .error e) ↔
      (∃ q, specRuleImport r param = some q ∧ innerImportTest q = .ok true)) ∧
    ∀ q, specRuleImport r param = some q → innerImportTest q = .ok true →
      resolve_helper r param = .error (.syntaxError (innerClassImportMsg q param)) := by
  have heq := resolve_helper_eq_resolveSpec r param hslash
  constructor
  · constructor
    · rintro ⟨e, he⟩
      rw [heq] at he
      obtain ⟨-, q, hq, ht, -⟩ := resolveSpec_error_cases r param hwf e he
      exact ⟨q, hq, ht⟩
    · rintro ⟨q, hq, ht⟩
      exact ⟨_, heq.trans (resolveSpec_inner_import_error r param hnested q hq ht)⟩
  · intro q hq ht
    exact heq.trans (resolveSpec_inner_import_error r param hnested q hq ht)

/-- Closed witness for `inner_import_error_C6`: importing the inner class
a/Outer/Foo directly and referencing Foo raises the SyntaxError. -/
theorem inner_import_error_C6_witness :
    resolve_helper ⟨"p/C".data, ["a/Outer/Foo".data], []⟩ "Foo".data =
      .error (.syntaxError
        (innerClassImportMsg "a/Outer/Foo".data "Foo".data)) :=
  (inner_import_error_C6 ⟨"p/C".data, ["a/Outer/Foo".data], []⟩ "Foo".data
    (by decide) (by decide) (by decide)).2 "a/Outer/Foo".data
    (by decide) (by decide)

theorem isPre_length {a b : Str} (h : isPre a b = true) :
    a.length ≤ b.length := by
  induction a generalizing b with
  | nil => simp
  | cons x xs ih =>
    cases b with
    | nil => simp [isPre] at h
    | cons y ys =>
      unfold isPre at h
      rw [Bool.and_eq_true] at h
      simpa using ih h.2

theorem pyEndsWith_length {s suf : Str} (h : pyEndsWith s suf = true) :
    suf.length ≤ s.length := by
  unfold pyEndsWith at h
  simpa using isPre_length h

theorem stripArraySuffixAux_fuel :
    ∀ (f1 : Nat) (f2 : Nat) (s : Str), s.length ≤ f1 → s.length ≤ f2 →
      stripArraySuffixAux f1 s = stripArraySuffixAux f2 s := by
  intro f1
  induction f1 with
  | zero =>
    intro f2 s h1 _
    have hs : s = [] := by
      cases s with
      | nil => rfl
      | cons a rest => simp at h1
    subst hs
    cases f2 with
    | zero => rfl
    | succ n =>
      unfold stripArraySuffixAux
      have h0 : pyEndsWith [] "[]".data = false := by decide
      rw [h0]
      simp
  | succ n ih =>
    intro f2 s h1 h2
    by_cases he : pyEndsWith s "[]".data = true
    · have hlen := pyEndsWith_length he
      simp only [List.length_cons, List.length_nil] at hlen
      cases f2 with
      | zero =>
        exfalso
        omega
      | succ m =>
        unfold stripArraySuffixAux
        rw [he]
        have hdrop : s.dropLast.dropLast.length = s.length - 2 := by
          simp only [List.length_dropLast]
          omega
        have := ih m s.dropLast.dropLast (by omega) (by omega)
        rw [this]
    · rw [Bool.not_eq_true] at he
      cases f2 with
      | zero =>
        have hs : s = [] := by
          cases s with
          | nil => rfl
          | cons a rest => simp at h2
        subst hs
        rfl
      | succ m =>
        unfold stripArraySuffixAux
        rw [he]
        simp

theorem isPre_append_self : ∀ (a b : Str), isPre a (a ++ b) = true := by
  intro a
  induction a with
  | nil => intro b; rfl
  | cons x xs ih =>
    intro b
    unfold isPre
    simp [ih b]

theorem stripArraySuffix_append_brackets (t : Str) :
    stripArraySuffix (t ++ "[]".data) =
      ((stripArraySuffix t).1 + 1, (stripArraySuffix t).2) := by
  have hends : pyEndsWith (t ++ "[]".data) "[]".data = true := by
    unfold pyEndsWith
    rw [List.reverse_append]
    exact isPre_append_self _ _
  have hdl : (t ++ "[]".data).dropLast.dropLast = t := by
    have h1 : t ++ "[]".data = (t ++ ['[']) ++ [']'] := by simp
    rw [h1, List.dropLast_concat, List.dropLast_concat]
  have hlen : (t ++ "[]".data).length = t.length + 2 := by simp
  unfold stripArraySuffix
  rw [hlen]
  conv_lhs => unfold stripArraySuffixAux
  rw [hends, hdl]
  simp only [if_true]
  rw [stripArraySuffixAux_fuel (t.length + 1) t.length t (by omega) (by omega)]

theorem java_to_jni_array (r : TypeResolver) (t : Str) :
    java_to_jni r (t ++ "[]".data) =
      Except.map (fun d => '[' :: d) (java_to_jni r t) := by
  unfold java_to_jni
  rw [stripArraySuffix_append_brackets]
  cases hp : primitiveMap (cutGenerics (stripArraySuffix t).2) with
  | some letter => simp [hp, Except.map, List.replicate_succ]
  | none =>
    cases hr : resolve_helper r (cutGenerics (stripArraySuffix t).2) with
    | error e => simp [hp, hr, Except.map]
    | ok tn => simp [hp, hr, Except.map, List.replicate_succ]

/-- Counterexample for C2 as stated: `create_signature` does not return the
bare descriptor; it wraps the descriptor in literal double-quote
characters, so a no-parameter void signature does not encode to the
six-character string used in the claim. -/
theorem jni_descriptor_C2_counterexample :
    create_signature ⟨"p/C".data, [], []⟩ [] "void".data =
      .ok ('"' :: '(' :: ')' :: 'V' :: ['"']) ∧
    ('"' :: '(' :: ')' :: 'V' :: ['"'] : Str) ≠ "()V".data := by
  exact ⟨by decide, by decide⟩

/-- C2 as amended: trailing array marker pairs each contribute one leading
JNI array marker, generic suffixes are cut before resolution, the nine
primitive names map to their single-letter codes independently of the
resolver state, other names resolve to an `L...;` descriptor, and the
three signature examples hold with the descriptor wrapped in the literal
double quotes emitted by `create_signature`. -/
theorem jni_descriptor_C2 :
    (∀ (r : TypeResolver) (t : Str),
      java_to_jni r (t ++ "[]".data) =
        Except.map (fun d => '[' :: d) (java_to_jni r t)) ∧
    (∀ r : TypeResolver,
      java_to_jni r "int".data = .ok "I".data ∧
      java_to_jni r "boolean".data = .ok "Z".data ∧
      java_to_jni r "char".data = .ok "C".data ∧
      java_to_jni r "short".data = .ok "S".data ∧
      java_to_jni r "long".data = .ok "J".data ∧
      java_to_jni r "double".data = .ok "D".data ∧
      java_to_jni r "float".data = .ok "F".data ∧
      java_to_jni r "byte".data = .ok "B".data ∧
      java_to_jni r "void".data = .ok "V".data) ∧
    (∀ r : TypeResolver,
      java_to_jni r "List<Integer>".data = java_to_jni r "List".data) ∧
    (∀ (r : TypeResolver) (p : Str),
      primitiveMap (cutGenerics (stripArraySuffix p).2) = none →
      java_to_jni r p =
        Except.map
          (fun tn => List.replicate (stripArraySuffix p).1 '[' ++
            'L' :: (tn ++ [';']))
          (resolve_helper r (cutGenerics (stripArraySuffix p).2))) ∧
    create_signature ⟨"p/C".data, [], []⟩ [] "void".data =
      .ok "\"()V\"".data ∧
    create_signature ⟨"p/C".data, [], []⟩ [⟨"String".data⟩] "int".data =
      .ok "\"(Ljava/lang/String;)I\"".data ∧
    create_signature ⟨"p/C".data, [], []⟩ [] "int[]".data =
      .ok "\"()[I\"".data := by
  refine ⟨java_to_jni_array, ?_, ?_, ?_, by decide, by decide, by decide⟩
  · intro r
    exact ⟨rfl, rfl, rfl, rfl, rfl, rfl, rfl, rfl, rfl⟩
  · intro r
    rfl
  · intro r p hp
    unfold java_to_jni
    rw [hp]
    cases hr : resolve_helper r (cutGenerics (stripArraySuffix p).2) with
    | error e => simp [Except.map]
    | ok tn => simp [Except.map]

/-- Closed witness for `jni_descriptor_C2` (its last general conjunct has a
hypothesis): the non-primitive branch evaluated at a concrete input. -/
theorem jni_descriptor_C2_witness :
    java_to_jni ⟨"p/C".data, [], []⟩ "String[]".data =
      Except.map
        (fun tn => List.replicate (stripArraySuffix "String[]".data).1 '[' ++
          'L' :: (tn ++ [';']))
        (resolve_helper ⟨"p/C".data, [], []⟩
          (cutGenerics (stripArraySuffix "String[]".data).2)) :=
  (jni_descriptor_C2.2.2.2.1) ⟨"p/C".data, [], []⟩ "String[]".data (by decide)

theorem genericsGroupEnd_length {s r : Str}
    (h : genericsGroupEnd s = some r) : r.length < s.length := by
  induction s generalizing r with
  | nil => simp [genericsGroupEnd] at h
  | cons c rest ih =>
    unfold genericsGroupEnd at h
    by_cases h1 : c = '>'
    · rw [if_pos h1] at h
      cases h
      simp
    · rw [if_neg h1] at h
      by_cases h2 : c = '<'
      · rw [if_pos h2] at h; simp at h
      · rw [if_neg h2] at h
        by_cases h3 : c = '\n'
        · rw [if_pos h3] at h; simp at h
        · rw [if_neg h3] at h
          have := ih h
          simp
          omega

theorem genericsSubAux_length :
    ∀ (fuel : Nat) (s : Str), (genericsSubAux fuel s).length ≤ s.length := by
  intro fuel
  induction fuel with
  | zero => intro s; simp [genericsSubAux]
  | succ n ih =>
    intro s
    cases s with
    | nil => simp [genericsSubAux]
    | cons c rest =>
      unfold genericsSubAux
      by_cases hc : c = '<'
      · rw [if_pos hc]
        cases hg : genericsGroupEnd rest with
        | some rest2 =>
          have h1 := ih rest2
          have h2 := genericsGroupEnd_length hg
          simp
          omega
        | none =>
          have h1 := ih rest
          simp
          omega
      · rw [if_neg hc]
        have h1 := ih rest
        simp
        omega

theorem genericsSub_length (s : Str) : (genericsSub s).length ≤ s.length :=
  genericsSubAux_length s.length s

theorem removeGenericsAux_some :
    ∀ (n : Nat) (s : Str), s.length ≤ n →
      ∃ r, removeGenericsAux (n + 1) s = some r := by
  intro n
  induction n with
  | zero =>
    intro s hs
    have hnil : s = [] := by
      cases s with
      | nil => rfl
      | cons a rest => simp at hs
    subst hnil
    exact ⟨[], by decide⟩
  | succ m ih =>
    intro s hs
    unfold removeGenericsAux
    by_cases heq : (genericsSub s).length = s.length
    · exact ⟨genericsSub s, by rw [if_pos heq]⟩
    · have hlt : (genericsSub s).length < s.length :=
        lt_of_le_of_ne (genericsSub_length s) heq
      have := ih (genericsSub s) (by omega)
      rw [if_neg heq]
      exact this

/-- C8: the generics-stripping pass always terminates, within an iteration
count bounded by the input length plus one, and the nested example needs
more than one pass to reach its result. -/
theorem remove_generics_C8 :
    (∀ s : Str, ∃ r, removeGenericsAux (s.length + 1) s = some r ∧
      remove_generics s = r) ∧
    remove_generics "Map<String, List<Integer>>".data = "Map".data ∧
    genericsSub "Map<String, List<Integer>>".data ≠ "Map".data ∧
    genericsSub (genericsSub "Map<String, List<Integer>>".data) =
      "Map".data := by
  refine ⟨?_, by decide, by decide, by decide⟩
  intro s
  obtain ⟨r, hr⟩ := removeGenericsAux_some s.length s (le_refl _)
  exact ⟨r, hr, by unfold remove_generics; rw [hr]; rfl⟩

/-- C3, evaluated at the failing input: for the overloaded pair the code
assigns the identifier foo/A_I, which contains a slash, yet the assert of
`GetMangledMethodName` accepts it because `re.match` only anchors at the
start and the first character f is valid; the claim (and the docstring of
the function) require the whole identifier to consist of letters, digits
and underscores. -/
theorem mangle_assert_C3_bug :
    MangleCalledByNatives [cbnFooBadReturn, cbnFooLong] =
      .ok [{ cbnFooBadReturn with method_id_var_name := some "foo/A_I".data },
           { cbnFooLong with method_id_var_name := some "fooV_J".data }] ∧
    pyContains "foo/A_I".data "/".data = true ∧
    assertMatchIdent "foo/A_I".data = true ∧
    ("foo/A_I".data.all (fun c => c.isAlphanum || c = '_')) = false := by
  exact ⟨by decide, by decide, by decide, by decide⟩

/-- Characters with equal code points are equal. -/
theorem charToNat_inj {a b : Char} (h : a.toNat = b.toNat) : a = b := by
  apply Char.ext
  unfold Char.toNat at h
  exact UInt32.ext (by exact h)

theorem strCmp_eq_iff : ∀ {a b : Str}, strCmp a b = .eq ↔ a = b := by
  intro a
  induction a with
  | nil =>
    intro b
    cases b with
    | nil => simp [strCmp]
    | cons y ys => simp [strCmp]
  | cons x xs ih =>
    intro b
    cases b with
    | nil => simp [strCmp]
    | cons y ys =>
      show strCmp (x :: xs) (y :: ys) = .eq ↔ _
      unfold strCmp
      by_cases h1 : x.toNat < y.toNat
      · simp only [h1, if_true]
        constructor
        · intro h; cases h
        · intro h
          have hx : x = y := by injection h
          rw [hx] at h1; omega
      · rw [if_neg h1]
        by_cases h2 : y.toNat < x.toNat
        · simp only [h2, if_true]
          constructor
          · intro h; cases h
          · intro h
            have hx : x = y := by injection h
            rw [hx] at h2; omega
        · rw [if_neg h2]
          have hxy : x = y := charToNat_inj (by omega)
          subst hxy
          rw [ih]
          simp

theorem strCmp_swap : ∀ (a b : Str), (strCmp a b).swap = strCmp b a := by
  intro a
  induction a with
  | nil =>
    intro b
    cases b with
    | nil => rfl
    | cons y ys => rfl
  | cons x xs ih =>
    intro b
    cases b with
    | nil => rfl
    | cons y ys =>
      show (strCmp (x :: xs) (y :: ys)).swap = strCmp (y :: ys) (x :: xs)
      unfold strCmp
      by_cases h1 : x.toNat < y.toNat
      · rw [if_pos h1, if_neg (by omega), if_pos h1]
        rfl
      · rw [if_neg h1]
        by_cases h2 : y.toNat < x.toNat
        · rw [if_pos h2, if_pos h2]
          rfl
        · rw [if_neg h2, if_neg h2, if_neg h1]
          exact ih ys

theorem strCmp_lt_trans : ∀ {a b c : Str}, strCmp a b = .lt →
    strCmp b c = .lt → strCmp a c = .lt := by
  intro a
  induction a with
  | nil =>
    intro b c hab hbc
    cases c with
    | nil =>
      cases b with
      | nil => cases hab
      | cons y ys => cases hbc
    | cons z zs => rfl
  | cons x xs ih =>
    intro b c hab hbc
    cases b with
    | nil => cases hab
    | cons y ys =>
      cases c with
      | nil => cases hbc
      | cons z zs =>
        revert hab hbc
        show strCmp (x :: xs) (y :: ys) = .lt →
          strCmp (y :: ys) (z :: zs) = .lt →
          strCmp (x :: xs) (z :: zs) = .lt
        unfold strCmp
        by_cases h1 : x.toNat < y.toNat
        · rw [if_pos h1]
          by_cases h2 : y.toNat < z.toNat
          · rw [if_pos h2, if_pos (by omega)]
            intro _ _; rfl
          · rw [if_neg h2]
            by_cases h3 : z.toNat < y.toNat
            · rw [if_pos h3]
              intro _ h; cases h
            · rw [if_neg h3]
              have : y = z := charToNat_inj (by omega)
              subst this
              rw [if_pos h1]
              intro _ _; rfl
        · rw [if_neg h1]
          by_cases h1b : y.toNat < x.toNat
          · rw [if_pos h1b]
            intro h; cases h
          · rw [if_neg h1b]
            have hxy : x = y := charToNat_inj (by omega)
            subst hxy
            by_cases h2 : x.toNat < z.toNat
            · rw [if_pos h2, if_pos h2]
              intro _ _; rfl
            · rw [if_neg h2]
              by_cases h3 : z.toNat < x.toNat
              · rw [if_pos h3]
                intro _ h; cases h
              · rw [if_neg h3, if_neg h2, if_neg h3]
                exact ih

theorem keyCmp_eq_iff : ∀ {a b : List Str}, keyCmp a b = .eq ↔ a = b := by
  intro a
  induction a with
  | nil =>
    intro b
    cases b with
    | nil => simp [keyCmp]
    | cons y ys => simp [keyCmp]
  | cons x xs ih =>
    intro b
    cases b with
    | nil => simp [keyCmp]
    | cons y ys =>
      show (match strCmp x y with
            | .eq => keyCmp xs ys
            | o => o) = .eq ↔ _
      cases hc : strCmp x y with
      | eq =>
        have hx : x = y := strCmp_eq_iff.mp hc
        subst hx
        rw [ih]
        simp
      | lt =>
        constructor
        · intro h; cases h
        · intro h
          have hx : x = y := by injection h
          rw [hx, (strCmp_eq_iff (a := y) (b := y)).mpr rfl] at hc
          cases hc
      | gt =>
        constructor
        · intro h; cases h
        · intro h
          have hx : x = y := by injection h
          rw [hx, (strCmp_eq_iff (a := y) (b := y)).mpr rfl] at hc
          cases hc

theorem keyCmp_swap : ∀ (a b : List Str), (keyCmp a b).swap = keyCmp b a := by
  intro a
  induction a with
  | nil =>
    intro b
    cases b with
    | nil => rfl
    | cons y ys => rfl
  | cons x xs ih =>
    intro b
    cases b with
    | nil => rfl
    | cons y ys =>
      show (match strCmp x y with
            | .eq => keyCmp xs ys
            | o => o).swap =
        (match strCmp y x with
         | .eq => keyCmp ys xs
         | o => o)
      cases hc : strCmp x y with
      | eq =>
        have hc2 : strCmp y x = .eq := by
          rw [← strCmp_swap x y, hc]; rfl
        rw [hc2]
        exact ih ys
      | lt =>
        have hc2 : strCmp y x = .gt := by
          rw [← strCmp_swap x y, hc]; rfl
        rw [hc2]
        rfl
      | gt =>
        have hc2 : strCmp y x = .lt := by
          rw [← strCmp_swap x y, hc]; rfl
        rw [hc2]
        rfl

theorem keyCmp_lt_trans : ∀ {a b c : List Str}, keyCmp a b = .lt →
    keyCmp b c = .lt → keyCmp a c = .lt := by
  intro a
  induction a with
  | nil =>
    intro b c hab hbc
    cases c with
    | nil =>
      cases b with
      | nil => cases hab
      | cons y ys => cases hbc
    | cons z zs => rfl
  | cons x xs ih =>
    intro b c hab hbc
    cases b with
    | nil => cases hab
    | cons y ys =>
      cases c with
      | nil => cases hbc
      | cons z zs =>
        revert hab hbc
        show (match strCmp x y with
              | .eq => keyCmp xs ys
              | o => o) = .lt →
          (match strCmp y z with
           | .eq => keyCmp ys zs
           | o => o) = .lt →
          (match strCmp x z with
           | .eq => keyCmp xs zs
           | o => o) = .lt
        cases h1 : strCmp x y with
        | eq =>
          have hx : x = y := strCmp_eq_iff.mp h1
          subst hx
          cases h2 : strCmp x z with
          | eq =>
            have hx2 : x = z := strCmp_eq_iff.mp h2
            subst hx2
            intro ha hb
            exact ih ha hb
          | lt => intro _ _; rfl
          | gt =>
            intro _ hb
            simp at hb
        | lt =>
          intro _
          cases h2 : strCmp y z with
          | eq =>
            have hy : y = z := strCmp_eq_iff.mp h2
            subst hy
            rw [h1]
            intro _; rfl
          | lt =>
            have h3 : strCmp x z = .lt := strCmp_lt_trans h1 h2
            rw [h3]
            intro _; rfl
          | gt => intro hb; cases hb
        | gt => intro ha; cases ha

theorem keyLE_total (a b : List Str) : keyLE a b = true ∨ keyLE b a = true := by
  unfold keyLE
  cases hc : keyCmp a b with
  | lt => left; rfl
  | eq => left; rfl
  | gt =>
    right
    have hc2 : keyCmp b a = .lt := by
      rw [← keyCmp_swap a b, hc]; rfl
    rw [hc2]

theorem keyLE_trans {a b c : List Str} (h1 : keyLE a b = true)
    (h2 : keyLE b c = true) : keyLE a c = true := by
  unfold keyLE at h1 h2 ⊢
  cases hab : keyCmp a b with
  | gt => rw [hab] at h1; cases h1
  | eq =>
    have := keyCmp_eq_iff.mp hab
    subst this
    cases hbc : keyCmp a c with
    | lt => rfl
    | eq => rfl
    | gt => rw [hbc] at h2; cases h2
  | lt =>
    cases hbc : keyCmp b c with
    | gt => rw [hbc] at h2; cases h2
    | eq =>
      have := keyCmp_eq_iff.mp hbc
      subst this
      rw [hab]
    | lt =>
      rw [keyCmp_lt_trans hab hbc]

theorem pyInsertSorted_mem {α : Type} (le : α → α → Bool) (a x : α) :
    ∀ (l : List α), x ∈ pyInsertSorted le a l ↔ x = a ∨ x ∈ l := by
  intro l
  induction l with
  | nil => simp [pyInsertSorted]
  | cons b rest ih =>
    unfold pyInsertSorted
    by_cases hab : le a b = true
    · rw [if_pos hab]
      simp
    · rw [if_neg hab]
      rw [List.mem_cons, ih, List.mem_cons]
      tauto

theorem pyInsertSorted_pairwise {α : Type} (le : α → α → Bool)
    (htot : ∀ a b, le a b = true ∨ le b a = true)
    (htrans : ∀ {a b c}, le a b = true → le b c = true → le a c = true)
    (a : α) :
    ∀ {l : List α}, l.Pairwise (fun x y => le x y = true) →
      (pyInsertSorted le a l).Pairwise (fun x y => le x y = true) := by
  intro l
  induction l with
  | nil =>
    intro _
    simp [pyInsertSorted]
  | cons b rest ih =>
    intro hp
    rw [List.pairwise_cons] at hp
    unfold pyInsertSorted
    by_cases hab : le a b = true
    · rw [if_pos hab]
      rw [List.pairwise_cons]
      constructor
      · intro x hx
        rcases List.mem_cons.mp hx with hx | hx
        · rw [hx]; exact hab
        · exact htrans hab (hp.1 x hx)
      · rw [List.pairwise_cons]
        exact hp
    · rw [if_neg hab]
      rw [List.pairwise_cons]
      have hba : le b a = true := by
        rcases htot a b with h | h
        · exact absurd h hab
        · exact h
      constructor
      · intro x hx
        rcases (pyInsertSorted_mem le a x rest).mp hx with hx | hx
        · rw [hx]; exact hba
        · exact hp.1 x hx
      · exact ih hp.2

theorem pySort_pairwise {α : Type} (le : α → α → Bool)
    (htot : ∀ a b, le a b = true ∨ le b a = true)
    (htrans : ∀ {a b c}, le a b = true → le b c = true → le a c = true) :
    ∀ (l : List α), (pySort le l).Pairwise (fun x y => le x y = true) := by
  intro l
  induction l with
  | nil => simp [pySort]
  | cons x xs ih =>
    unfold pySort
    exact pyInsertSorted_pairwise le htot htrans x ih

theorem pyReplace_prefix_drop :
    ∀ (rest : Str), pyContains rest "native".data = false →
      pyReplace ("native".data ++ rest) "native".data "".data = rest := by
  intro rest h
  show pyReplaceAux "native".data "".data
    (("native".data ++ rest).length + 1) ("native".data ++ rest) = rest
  have hlen : ("native".data ++ rest).length + 1 = rest.length + 6 + 1 := by
    simp
  rw [hlen]
  show pyReplaceAux "native".data "".data (rest.length + 6 + 1)
    ('n' :: ("ative".data ++ rest)) = rest
  unfold pyReplaceAux
  have hp : ("native".data ≠ [] && isPre "native".data
      ('n' :: ("ative".data ++ rest))) = true := by
    rw [Bool.and_eq_true]
    exact ⟨by decide, isPre_append_self "native".data rest⟩
  rw [hp]
  simp only [if_true]
  show "".data ++ pyReplaceAux "native".data "".data (rest.length + 6)
    (("native".data ++ rest).drop 6) = rest
  have hdrop : ("native".data ++ rest).drop 6 = rest := by
    simp
  rw [hdrop]
  show pyReplaceAux "native".data "".data (rest.length + 6) rest = rest
  exact pyReplaceAux_no_occurrence _ rest h

/-- Counterexample for C4 as stated: the declared name
nativeFoonativeBar is stored as FooBar because `str.replace` removes
every occurrence of the substring native, not only the prefix; stripping
only the prefix would store FoonativeBar. -/
theorem extract_natives_C4_counterexample :
    ExtractNatives (resolve_helper ⟨"p/C".data, [], []⟩) fileC4Counter =
      .ok [NativeMethod.make true none
        { array_dimensions := 0
          primitive_name := some "void".data
          java_class := none
          annotations := [] } [] "FooBar".data] ∧
    ("FooBar".data : Str) ≠ "FoonativeBar".data := by
  exact ⟨by decide, by decide⟩

/-- C4 as amended: the stored name of every matched legacy native is the
declared name with every occurrence of the substring native removed
(which equals stripping the prefix whenever native does not occur again
in the remainder of the name); the minimal scenario file yields exactly
one NativeMethod named Foo, static, with a single int parameter and not a
proxy. -/
theorem extract_natives_C4 :
    (∀ (resolve : Str → Except PyErr Str) (caps : Caps) (m : NativeMethod),
      natFromMatch resolve caps = .ok m →
      m.name = pyReplace ((getCap 3 caps).getD []) "native".data "".data) ∧
    (∀ rest : Str, pyContains rest "native".data = false →
      pyReplace ("native".data ++ rest) "native".data "".data = rest) ∧
    ExtractNatives (resolve_helper ⟨"p/C".data, [], []⟩) fileC4 =
      .ok [nativeFooExpected] ∧
    nativeFooExpected.name = "Foo".data ∧
    nativeFooExpected.static = true ∧
    nativeFooExpected.is_proxy = false ∧
    nativeFooExpected.signature.param_types = [jtIntPlain] := by
  refine ⟨?_, pyReplace_prefix_drop, by decide, by decide, by decide,
    by decide, by decide⟩
  intro resolve caps m h
  unfold natFromMatch at h
  cases h1 : parse_type resolve ((getCap 2 caps).getD []) with
  | error e => rw [h1] at h; cases h
  | ok rt =>
    rw [h1] at h
    cases h2 : parse_param_list resolve ((getCap 4 caps).getD []) true with
    | error e => rw [h2] at h; cases h
    | ok params =>
      rw [h2] at h
      cases h
      rfl

/-- Closed witness for `extract_natives_C4` (its first conjunct has a
hypothesis): the naming rule applied to one concrete match. -/
theorem extract_natives_C4_witness :
    (NativeMethod.make true none jtIntPlain
        [{ java_type := jtIntPlain, name := "x".data }] "Foo".data).name =
      pyReplace ((getCap 3 [(3, "nativeFoo".data), (2, "int".data),
        (1, "public static".data), (4, "int x".data)]).getD [])
        "native".data "".data :=
  extract_natives_C4.1 (resolve_helper ⟨"p/C".data, [], []⟩)
    [(3, "nativeFoo".data), (2, "int".data), (1, "public static".data),
     (4, "int x".data)]
    (NativeMethod.make true none jtIntPlain
      [{ java_type := jtIntPlain, name := "x".data }] "Foo".data)
    (by decide)

/-- C5, evaluated at the failing input: the line-pair residual check walks
`zip(lines, lines[1:])`, so an unmatched @CalledByNative occurrence in the
final line of the residual is never inspected and extraction succeeds,
while the same occurrence followed by any further line raises the
ParseError carrying the offending line and the line after it. -/
theorem unmatched_annotation_C5_bug :
    ExtractCalledByNatives (resolve_helper ⟨"p/C".data, [], []⟩)
      "@CalledByNative".data = .ok [] ∧
    reScan reCalledByNative "@CalledByNative".data =
      .ok ([], "@CalledByNative".data) ∧
    pyContains "@CalledByNative".data "@CalledByNative".data = true ∧
    checkUnmatchedLines ["@CalledByNative".data] = .ok () ∧
    ExtractCalledByNatives (resolve_helper ⟨"p/C".data, [], []⟩)
      "@CalledByNative\nx".data =
      .error (.parseError
        "could not parse @CalledByNative method signature".data
        "@CalledByNative".data "x".data) := by
  exact ⟨by decide, by decide, by decide, by decide, by decide⟩

theorem varargsAdjust_array_form (t : Str)
    (h : pyEndsWith t "...".data = true) :
    varargsAdjust t =
      varargsAdjust (t.dropLast.dropLast.dropLast ++ "[]".data) := by
  have hfalse : pyEndsWith (t.dropLast.dropLast.dropLast ++ "[]".data)
      "...".data = false := by
    unfold pyEndsWith
    rw [List.reverse_append]
    rfl
  unfold varargsAdjust
  rw [h, hfalse]
  simp

theorem varargs_parse_eq (resolve : Str → Except PyErr Str) (t : Str)
    (h : pyEndsWith t "...".data = true) :
    parse_type resolve (varargsAdjust t) =
      parse_type resolve (t.dropLast.dropLast.dropLast ++ "[]".data) := by
  rw [varargsAdjust_array_form t h]
  unfold varargsAdjust
  rw [show pyEndsWith (t.dropLast.dropLast.dropLast ++ "[]".data)
      "...".data = false by
    unfold pyEndsWith
    rw [List.reverse_append]
    rfl]
  simp

theorem matchHere_annotation_nomatch (mf : Nat) (s : Str)
    (prev : Option Char) (h : isPre "@".data s = false) :
    matchHere (mf + 1) reAnnot s prev = .nomatch := by
  unfold matchHere reAnnot
  simp only [mtch]
  rw [h]
  simp

theorem annScanAux_succ (mfuel fuel : Nat) (s : Str) (prev : Option Char) :
    annScanAux mfuel (fuel + 1) s prev =
      (match matchHere mfuel reAnnot s prev with
       | MRes.fuelOut => Except.error PyErr.fuelExhausted
       | MRes.found (caps, rest) =>
         if rest.length = s.length then
           Except.error PyErr.fuelExhausted
         else
           match annScanAux mfuel fuel rest
               ((s.take (s.length - rest.length)).getLast?) with
           | Except.error e => Except.error e
           | Except.ok (anns, tl) =>
             Except.ok (((getCap 0 caps).getD [], getCap 1 caps) :: anns,
                  some (tl.getD rest))
       | MRes.nomatch =>
         match s with
         | [] => Except.ok ([], none)
         | c :: s2 =>
           match annScanAux mfuel fuel s2 (some c) with
           | Except.error e => Except.error e
           | Except.ok (anns, tl) => Except.ok (anns, tl)) := rfl

theorem annScan_no_at :
    ∀ (n : Nat) (mf : Nat) (s : Str) (prev : Option Char),
      s.length ≤ n → pyContains s "@".data = false →
      annScanAux (mf + 1) (n + 1) s prev = .ok ([], none) := by
  intro n
  induction n with
  | zero =>
    intro mf s prev hlen hcont
    have hs : s = [] := by
      cases s with
      | nil => rfl
      | cons a r => simp at hlen
    subst hs
    have hm := matchHere_annotation_nomatch mf [] prev (by decide)
    rw [annScanAux_succ, hm]
  | succ m ih =>
    intro mf s prev hlen hcont
    cases s with
    | nil =>
      have hm := matchHere_annotation_nomatch mf [] prev (by decide)
      rw [annScanAux_succ, hm]
    | cons c s2 =>
      unfold pyContains at hcont
      rw [Bool.or_eq_false_iff] at hcont
      have hm := matchHere_annotation_nomatch mf (c :: s2) prev hcont.1
      rw [annScanAux_succ, hm]
      show (match annScanAux (mf + 1) (m + 1) s2 (some c) with
            | Except.error e => Except.error e
            | Except.ok (anns, tl) =>
              (Except.ok (anns, tl) : Except PyErr
                (List (Str × Option Str) × Option Str))) = _
      rw [ih mf s2 (some c) (by simpa using hlen) hcont.2]

theorem pyParseAnnotations_no_at (value : Str)
    (h : pyContains value "@".data = false) :
    pyParseAnnotations value = .ok ([], value) := by
  unfold pyParseAnnotations
  obtain ⟨m, hm⟩ : ∃ m, engineFuel value = m + 1 :=
    ⟨100000 + 100 * value.length - 1, by unfold engineFuel; omega⟩
  rw [hm]
  rw [annScan_no_at value.length m value none (le_refl _) h]
  rfl

theorem parse_type_no_ann (resolve : Str → Except PyErr Str) (value : Str)
    (h : pyContains value "@".data = false) :
    parse_type resolve value =
      (if javaPrimitivesContains (stripArraySuffix value).2 then
        Except.ok
          { array_dimensions := (stripArraySuffix value).1
            primitive_name := some (stripArraySuffix value).2
            java_class := none
            annotations := [] }
      else
        match resolve (stripArraySuffix value).2 with
        | Except.error e => Except.error e
        | Except.ok jc =>
          Except.ok
            { array_dimensions := (stripArraySuffix value).1
              primitive_name := none
              java_class := some jc
              annotations := [] }) := by
  unfold parse_type
  rw [pyParseAnnotations_no_at _ h]

theorem parse_type_array_suffix (resolve : Str → Except PyErr Str)
    (base : Str) (h1 : pyContains base "@".data = false)
    (h2 : pyContains (base ++ "[]".data) "@".data = false) :
    parse_type resolve (base ++ "[]".data) =
      (parse_type resolve base).map
        (fun jt => { jt with array_dimensions := jt.array_dimensions + 1 }) := by
  rw [parse_type_no_ann resolve _ h2, parse_type_no_ann resolve _ h1,
    stripArraySuffix_append_brackets]
  by_cases hp : javaPrimitivesContains (stripArraySuffix base).2 = true
  · rw [if_pos hp, if_pos hp]
    rfl
  · rw [Bool.not_eq_true] at hp
    rw [if_neg (by rw [hp]; simp), if_neg (by rw [hp]; simp)]
    cases hr : resolve (stripArraySuffix base).2 with
    | error e => rfl
    | ok jc => rfl

/-- C10: a parameter type text ending in the varargs marker is processed
exactly as if it ended in an array marker pair instead: the rewritten text
is the array form itself, the parsed type is that of the array form, and
for annotation-free type texts appending an array marker pair yields the
same parsed type with the array dimension one greater. -/
theorem varargs_C10 :
    (∀ t : Str, pyEndsWith t "...".data = true →
      varargsAdjust t =
        varargsAdjust (t.dropLast.dropLast.dropLast ++ "[]".data)) ∧
    (∀ (resolve : Str → Except PyErr Str) (t : Str),
      pyEndsWith t "...".data = true →
      parse_type resolve (varargsAdjust t) =
        parse_type resolve (t.dropLast.dropLast.dropLast ++ "[]".data)) ∧
    (∀ (resolve : Str → Except PyErr Str) (base : Str),
      pyContains base "@".data = false →
      pyContains (base ++ "[]".data) "@".data = false →
      parse_type resolve (base ++ "[]".data) =
        (parse_type resolve base).map
          (fun jt =>
            { jt with array_dimensions := jt.array_dimensions + 1 })) :=
  ⟨varargsAdjust_array_form, varargs_parse_eq, parse_type_array_suffix⟩

/-- Closed witness for `varargs_C10` at the type text of an int varargs
parameter. -/
theorem varargs_C10_witness :
    parse_type (resolve_helper ⟨"p/C".data, [], []⟩)
        (varargsAdjust "int...".data) =
      parse_type (resolve_helper ⟨"p/C".data, [], []⟩)
        ("int...".data.dropLast.dropLast.dropLast ++ "[]".data) :=
  varargs_C10.2.1 (resolve_helper ⟨"p/C".data, [], []⟩) "int...".data
    (by decide)

theorem mapExcept_forall2 {α β : Type} (f : α → Except PyErr β) :
    ∀ {l : List α} {l2 : List β}, mapExcept f l = .ok l2 →
      List.Forall₂ (fun a b => f a = .ok b) l l2 := by
  intro l
  induction l with
  | nil =>
    intro l2 h
    unfold mapExcept at h
    cases h
    exact List.Forall₂.nil
  | cons a more ih =>
    intro l2 h
    unfold mapExcept at h
    cases hf : f a with
    | error e => rw [hf] at h; cases h
    | ok b =>
      rw [hf] at h
      cases hm : mapExcept f more with
      | error e => rw [hm] at h; cases h
      | ok bs =>
        rw [hm] at h
        cases h
        exact List.Forall₂.cons hf (ih hm)

theorem forall2_mem_right {α β : Type} {R : α → β → Prop} :
    ∀ {l : List α} {l2 : List β}, List.Forall₂ R l l2 →
      ∀ {b}, b ∈ l2 → ∃ a, a ∈ l ∧ R a b := by
  intro l l2 h
  induction h with
  | nil => intro b hb; cases hb
  | @cons x y xs ys hR hF ih =>
    intro b hb
    rcases List.mem_cons.mp hb with hb1 | hb2
    · subst hb1
      exact ⟨x, List.mem_cons_self x xs, hR⟩
    · obtain ⟨a, ha, hr⟩ := ih hb2
      exact ⟨a, List.mem_cons_of_mem x ha, hr⟩

theorem pairwise_transfer {α β : Type} {R : α → β → Prop}
    {P : α → α → Prop} {Q : β → β → Prop}
    (compat : ∀ a b a2 b2, R a a2 → R b b2 → P a b → Q a2 b2) :
    ∀ {l : List α} {l2 : List β}, List.Forall₂ R l l2 →
      l.Pairwise P → l2.Pairwise Q := by
  intro l l2 h
  induction h with
  | nil => intro _; exact List.Pairwise.nil
  | @cons x y xs ys hR hF ih =>
    intro hp
    rw [List.pairwise_cons] at hp
    rw [List.pairwise_cons]
    constructor
    · intro b hb
      obtain ⟨a, ha, hr⟩ := forall2_mem_right hF hb
      exact compat x a y b hR hr (hp.1 a ha)
    · exact ih hp.2

theorem mangle_elem_key {l : List CalledByNative} {c c2 : CalledByNative}
    (h : (if l.countP (fun d =>
          d.java_class_name = c.java_class_name && d.name = c.name) > 1 then
        match GetMangledMethodName c.name c.signature with
        | Except.error e => Except.error e
        | Except.ok m => Except.ok { c with method_id_var_name := some m }
      else
        Except.ok { c with method_id_var_name := some c.name }) = .ok c2) :
    cbnSortKey c2 = cbnSortKey c := by
  by_cases hc : l.countP (fun d =>
      d.java_class_name = c.java_class_name && d.name = c.name) > 1
  · rw [if_pos hc] at h
    cases hg : GetMangledMethodName c.name c.signature with
    | error e => rw [hg] at h; cases h
    | ok m =>
      rw [hg] at h
      cases h
      rfl
  · rw [if_neg hc] at h
    cases h
    rfl

theorem extract_natives_sorted (resolve : Str → Except PyErr Str)
    (contents : Str) (l : List NativeMethod)
    (h : ExtractNatives resolve contents = .ok l) :
    l.Pairwise (fun a b => keyLE (natSortKey a) (natSortKey b) = true) := by
  unfold ExtractNatives at h
  cases hs : reScan reExtractNatives contents with
  | error e => rw [hs] at h; cases h
  | ok pr =>
    rw [hs, show (pr : List Caps × Str) = (pr.1, pr.2) from rfl] at h
    replace h : (match mapExcept (natFromMatch resolve) pr.1 with
      | Except.error e => Except.error e
      | Except.ok natives =>
        Except.ok (pySort (fun a b => keyLE (natSortKey a) (natSortKey b))
          natives)) = Except.ok l := h
    cases hm : mapExcept (natFromMatch resolve) pr.1 with
    | error e =>
      rw [hm] at h
      cases h
    | ok natives =>
      rw [hm] at h
      cases h
      exact pySort_pairwise _
        (fun a b => keyLE_total (natSortKey a) (natSortKey b))
        (fun h1 h2 => keyLE_trans h1 h2) natives

theorem extract_called_by_natives_sorted (resolve : Str → Except PyErr Str)
    (contents : Str) (l : List CalledByNative)
    (h : ExtractCalledByNatives resolve contents = .ok l) :
    l.Pairwise (fun a b => keyLE (cbnSortKey a) (cbnSortKey b) = true) := by
  unfold ExtractCalledByNatives at h
  cases hs : reScan reCalledByNative contents with
  | error e => rw [hs] at h; cases h
  | ok pr =>
    rw [hs, show (pr : List Caps × Str) = (pr.1, pr.2) from rfl] at h
    replace h : (match mapExcept (cbnFromMatch resolve) pr.1 with
      | Except.error e => Except.error e
      | Except.ok called_by_natives =>
        match checkUnmatchedLines (pySplitOn (Char.ofNat 10) pr.2) with
        | Except.error e => Except.error e
        | Except.ok _ =>
          MangleCalledByNatives
            (pySort (fun a b => keyLE (cbnSortKey a) (cbnSortKey b))
              called_by_natives)) = Except.ok l := h
    cases hm : mapExcept (cbnFromMatch resolve) pr.1 with
    | error e => rw [hm] at h; cases h
    | ok cbns =>
      rw [hm] at h
      cases hchk : checkUnmatchedLines (pySplitOn (Char.ofNat 10) pr.2) with
      | error e => rw [hchk] at h; cases h
      | ok u =>
        cases u
        rw [hchk] at h
        have hsorted := pySort_pairwise
          (fun (a b : CalledByNative) => keyLE (cbnSortKey a) (cbnSortKey b))
          (fun a b => keyLE_total (cbnSortKey a) (cbnSortKey b))
          (fun h1 h2 => keyLE_trans h1 h2) cbns
        unfold MangleCalledByNatives at h
        have hF := mapExcept_forall2 _ h
        refine pairwise_transfer ?_ hF hsorted
        intro a b a2 b2 hr1 hr2 hp
        have k1 := mangle_elem_key hr1
        have k2 := mangle_elem_key hr2
        rw [k1, k2]
        exact hp

theorem proxy_methods_sorted (resolve : Str → Except PyErr Str)
    (contents : Str) (p : ParsedProxyNatives)
    (h : parseProxyNatives resolve contents = .ok (some p)) :
    p.methods.Pairwise
      (fun a b => keyLE (pmSortKey a) (pmSortKey b) = true) := by
  unfold parseProxyNatives at h
  cases hs : reScan reNativeProxy contents with
  | error e => rw [hs] at h; cases h
  | ok pr =>
    rw [hs, show (pr : List Caps × Str) = (pr.1, pr.2) from rfl] at h
    cases hml : pr.1 with
    | nil => rw [hml] at h; cases h
    | cons m1 more =>
      rw [hml] at h
      replace h : (if more ≠ [] then
          Except.error (PyErr.syntaxError
            "Multiple @NativeMethod interfaces in one class is not supported.".data)
        else
          match reScan reExtractMethods ((getCap 3 m1).getD []) with
          | Except.error e => Except.error e
          | Except.ok (mms, _) =>
            match mapExcept (pmFromMatch resolve) mms with
            | Except.error e => Except.error e
            | Except.ok methods =>
              if methods.isEmpty then
                Except.error (PyErr.syntaxError
                  "Found no methods within @NativeMethod interface.".data)
              else
                Except.ok (some
                  { interface_name := (getCap 2 m1).getD []
                    visibility := getCap 1 m1
                    module_name := getCap 0 m1
                    methods := pySort
                      (fun a b => keyLE (pmSortKey a) (pmSortKey b))
                      methods })) = Except.ok (some p) := h
      by_cases hmore : more ≠ []
      · rw [if_pos hmore] at h; cases h
      · rw [if_neg hmore] at h
        cases hs2 : reScan reExtractMethods ((getCap 3 m1).getD []) with
        | error e => rw [hs2] at h; cases h
        | ok pr2 =>
          rw [hs2, show (pr2 : List Caps × Str) = (pr2.1, pr2.2) from rfl] at h
          replace h : (match mapExcept (pmFromMatch resolve) pr2.1 with
            | Except.error e => Except.error e
            | Except.ok methods =>
              if methods.isEmpty then
                Except.error (PyErr.syntaxError
                  "Found no methods within @NativeMethod interface.".data)
              else
                Except.ok (some
                  { interface_name := (getCap 2 m1).getD []
                    visibility := getCap 1 m1
                    module_name := getCap 0 m1
                    methods := pySort
                      (fun a b => keyLE (pmSortKey a) (pmSortKey b))
                      methods })) = Except.ok (some p) := h
          cases hm2 : mapExcept (pmFromMatch resolve) pr2.1 with
          | error e => rw [hm2] at h; cases h
          | ok methods =>
            rw [hm2] at h
            replace h : (if methods.isEmpty then
                Except.error (PyErr.syntaxError
                  "Found no methods within @NativeMethod interface.".data)
              else
                Except.ok (some
                  { interface_name := (getCap 2 m1).getD []
                    visibility := getCap 1 m1
                    module_name := getCap 0 m1
                    methods := pySort
                      (fun a b => keyLE (pmSortKey a) (pmSortKey b))
                      methods })) = Except.ok (some p) := h
            by_cases hempty : methods.isEmpty = true
            · rw [if_pos hempty] at h; cases h
            · rw [if_neg hempty] at h
              cases h
              exact pySort_pairwise _
                (fun a b => keyLE_total (pmSortKey a) (pmSortKey b))
                (fun h1 h2 => keyLE_trans h1 h2) methods

/-- C7: extraction is a pure function of the resolver state and the text
(every re-run yields the same result by definition), and each produced
list carries an explicit sort: legacy natives by (name, signature),
called-by-natives by (owning class name, name, signature) with overload
mangling leaving the keys untouched, and proxy methods by the ParsedMethod
order; no output order depends on anything but the input. -/
theorem deterministic_sorted_C7 :
    (∀ (resolve : Str → Except PyErr Str) (contents : Str),
      ExtractNatives resolve contents = ExtractNatives resolve contents ∧
      ExtractCalledByNatives resolve contents =
        ExtractCalledByNatives resolve contents ∧
      parseProxyNatives resolve contents = parseProxyNatives resolve contents) ∧
    (∀ resolve contents l, ExtractNatives resolve contents = .ok l →
      l.Pairwise (fun a b => keyLE (natSortKey a) (natSortKey b) = true)) ∧
    (∀ resolve contents l, ExtractCalledByNatives resolve contents = .ok l →
      l.Pairwise (fun a b => keyLE (cbnSortKey a) (cbnSortKey b) = true)) ∧
    (∀ resolve contents p, parseProxyNatives resolve contents = .ok (some p) →
      p.methods.Pairwise
        (fun a b => keyLE (pmSortKey a) (pmSortKey b) = true)) :=
  ⟨fun _ _ => ⟨rfl, rfl, rfl⟩,
   extract_natives_sorted,
   extract_called_by_natives_sorted,
   proxy_methods_sorted⟩

/-- Closed witness for `deterministic_sorted_C7`: the sortedness of the
natives list extracted from the concrete scenario file. -/
theorem deterministic_sorted_C7_witness :
    ([nativeFooExpected] : List NativeMethod).Pairwise
      (fun a b => keyLE (natSortKey a) (natSortKey b) = true) :=
  deterministic_sorted_C7.2.1 (resolve_helper ⟨"p/C".data, [], []⟩) fileC4
    [nativeFooExpected] (by decide)
